import Mathlib

/-!
# Framed chat protocol: message codec and session pipeline

A shallow embedding of `src/message.h` (class `Message`), `src/session.h`
(class `Session`), `src/server.h` (`Server::send`) and the input loop of `main`
in `src/chat.cpp`, followed by theorems about the wire format, header
validation, the receive pipeline, the outbound queue and the input loop.

Conventions of the embedding:
* a `char` of the message buffer is a `Byte` (`Fin 256`);
* `uint32_t` / `uint16_t` / `std::size_t` values are `Nat`, reduced explicitly
  where the source narrows them;
* the buffer `char data_[HEADER_SIZE + MAX_BODY_SIZE]` is a function from
  offsets to bytes; the capacity is checked explicitly where the reactor
  stores received bytes;
* mutating member functions return the updated object;
* asynchronous operations are explicit state: an outstanding read, the list of
  writes in flight, and completion events that run the completion handlers.
-/

namespace Chat

/-! ## message.h -/

/-- One `char` of the message buffer, as an unsigned octet. -/
abbrev Byte := Fin 256

/-- Narrowing conversion of an integer to one octet. -/
def to_byte (n : Nat) : Byte := ⟨n % 256, Nat.mod_lt n (by decide)⟩

/-- Constant `Message::HEADER_SIZE`. -/
def HEADER_SIZE : Nat := 7

/-- Constant `Message::MAX_BODY_SIZE`. -/
def MAX_BODY_SIZE : Nat := 1024

/-- Enumeration `Message::Type`. -/
inductive MsgType where
  | text
  | ack
  deriving DecidableEq, Repr

/-- Class `Message`: the private members `msg_type_`, `msg_id_`, `data_`,
`body_size_`. -/
structure Message where
  msg_type_ : MsgType
  msg_id_ : Nat
  data_ : Nat → Byte
  body_size_ : Nat

namespace Message

/-- Constructor `Message(Type msg_type, uint32_t msg_id, std::size_t msg_size = 0)`.
The buffer is not initialised by the constructor; `uninit` is whatever it holds. -/
def create (msg_type : MsgType) (msg_id : Nat) (msg_size : Nat) (uninit : Nat → Byte) :
    Message :=
  { msg_type_ := msg_type, msg_id_ := msg_id % 2 ^ 32, data_ := uninit, body_size_ := msg_size }

/-- Member `size()`. -/
def size (m : Message) : Nat := HEADER_SIZE + m.body_size_

/-- Member `body_size()`. -/
def body_size (m : Message) : Nat := m.body_size_

/-- Member `id()`. -/
def id (m : Message) : Nat := m.msg_id_

/-- Member `is_text()`. -/
def is_text (m : Message) : Bool := m.msg_type_ == MsgType.text

/-- Member `is_ack()`. -/
def is_ack (m : Message) : Bool := m.msg_type_ == MsgType.ack

/-- The `body_size()` bytes starting at `body()`, i.e. at `data_ + HEADER_SIZE`. -/
def body (m : Message) : List Byte :=
  (List.range m.body_size).map (fun i => m.data_ (HEADER_SIZE + i))

/-- The `size()` bytes starting at `data()`: what `async_write` transmits. -/
def bytes (m : Message) : List Byte :=
  (List.range m.size).map m.data_

/-- Member `set_body_size`. -/
def set_body_size (m : Message) (new_size : Nat) : Message :=
  let m1 := { m with body_size_ := new_size }
  if m1.body_size_ > MAX_BODY_SIZE then { m1 with body_size_ := MAX_BODY_SIZE } else m1

/-- Value of `ntohl(*(uint32_t*)(data_ + 1))`: the octets 1..4 read as a
big-endian 32-bit integer. -/
def ntohl_at1 (d : Nat → Byte) : Nat :=
  (d 1).val * 2 ^ 24 + (d 2).val * 2 ^ 16 + (d 3).val * 2 ^ 8 + (d 4).val

/-- Value of `ntohs(*(uint16_t*)(data_ + 5))`: the octets 5..6 read as a
big-endian 16-bit integer. -/
def ntohs_at5 (d : Nat → Byte) : Nat :=
  (d 5).val * 2 ^ 8 + (d 6).val

/-- Member `decode_header`: the returned flag and the object after the call. -/
def decode_header (m : Message) : Bool × Message :=
  let rest (m0 : Message) : Bool × Message :=
    let m1 := { m0 with msg_id_ := ntohl_at1 m0.data_ }
    let m2 := { m1 with body_size_ := ntohs_at5 m1.data_ }
    if m2.body_size_ > MAX_BODY_SIZE then (false, { m2 with body_size_ := 0 })
    else (true, m2)
  match (m.data_ 0).val with
  | 0 => rest { m with msg_type_ := MsgType.text }
  | 1 => rest { m with msg_type_ := MsgType.ack }
  | _ => (false, m)

/-- Member `encode_header`: octet 0 is the type, `htonl(msg_id_)` is stored at
octets 1..4 and `htons(body_size_)` (narrowed to 16 bits) at octets 5..6. -/
def encode_header (m : Message) : Message :=
  let id32 := m.msg_id_ % 2 ^ 32
  let len16 := m.body_size_ % 2 ^ 16
  { m with data_ := fun i =>
      if i = 0 then (if m.msg_type_ = MsgType.text then 0 else 1)
      else if i = 1 then to_byte (id32 / 2 ^ 24)
      else if i = 2 then to_byte (id32 / 2 ^ 16)
      else if i = 3 then to_byte (id32 / 2 ^ 8)
      else if i = 4 then to_byte id32
      else if i = 5 then to_byte (len16 / 2 ^ 8)
      else if i = 6 then to_byte len16
      else m.data_ i }

/-- Bytes delivered by a completed read are placed at `off`, `off + 1`, ... of the
buffer. -/
def store (m : Message) (off : Nat) (bs : List Byte) : Message :=
  { m with data_ := fun i =>
      if h : off ≤ i ∧ i - off < bs.length then bs.get ⟨i - off, h.2⟩ else m.data_ i }

end Message

/-! ## session.h -/

/-- A `high_resolution_clock::time_point`, in clock ticks. -/
abbrev TimePoint := Int

/-- Ticks of `high_resolution_clock` per microsecond (the clock counts
nanoseconds). -/
def TICKS_PER_MICROSECOND : Int := 1000

/-- Conversion `std::chrono::duration_cast<std::chrono::microseconds>(d).count()`:
integer division that truncates toward zero. -/
def duration_cast_microseconds (d : Int) : Int := Int.tdiv d TICKS_PER_MICROSECOND

/-- What the session writes to `std::cout`, one constructor per message. -/
inductive Notification where
  /-- Line `No active session to send`. -/
  | NoActiveSession
  /-- Line `No active client session to send` (written by `Server::send`). -/
  | NoActiveClientSession
  /-- Line `Error while reading message header: ...`. -/
  | HeaderReadError
  /-- Line `Error while reading message body: ...`. -/
  | BodyReadError
  /-- Line `Error while sending: ...`. -/
  | SendError
  /-- Line `(message #id delivered in elapsed_ms/1000 [ms])`; `micros` is the value
  of `elapsed_ms` before the division, a whole number of microseconds. -/
  | LatencyReport (id : Nat) (micros : Int)
  /-- Line `<Malformed message received>`. -/
  | MalformedMessage
  /-- Line `>>> body`. -/
  | IncomingText (body : List Byte)
  deriving DecidableEq, Repr

/-- The table `std::unordered_map<uint32_t, time_point> msg_send_times_`. -/
abbrev SendTimes := Nat → Option TimePoint

namespace SendTimes

/-- The empty table. -/
def empty : SendTimes := fun _ => none

/-- Member `find`: the mapped value, `none` for `end()`. -/
def find (t : SendTimes) (key : Nat) : Option TimePoint := t key

/-- Member `insert`: adds the pair unless the key is already present. -/
def insert (t : SendTimes) (key : Nat) (v : TimePoint) : SendTimes :=
  match t key with
  | some _ => t
  | none => fun k => if k = key then some v else t k

/-- Member `erase`. -/
def erase (t : SendTimes) (key : Nat) : SendTimes :=
  fun k => if k = key then none else t k

end SendTimes

/-- An outstanding `async_read` on the socket: into the header area
(`read_msg_.data()`, `HEADER_SIZE` bytes) or into the body area
(`read_msg_.body()`, `body_size()` bytes). -/
inductive ReadOp where
  | header
  | body (n : Nat)
  deriving DecidableEq, Repr

namespace ReadOp

/-- Offset in `data_` of the first byte the read fills. -/
def offset : ReadOp → Nat
  | header => 0
  | body _ => HEADER_SIZE

/-- Number of bytes the read asks for. -/
def length : ReadOp → Nat
  | header => HEADER_SIZE
  | body n => n

end ReadOp

/-- Class `Session`. The members `socket_` (as its open flag), `read_msg_`,
`msgs_to_send_`, `msg_send_times_`, and what the session has handed to its
environment: the outstanding read, the writes in flight (oldest first), the lines
written to the console and the buffers whose write has completed. -/
structure Session where
  socket_open_ : Bool
  read_msg_ : Message
  msgs_to_send_ : List Message
  msg_send_times_ : SendTimes
  pending_read : Option ReadOp
  writes_in_flight : List (List Byte)
  console : List Notification
  wire : List (List Byte)

namespace Session

/-- Member `is_active()`. -/
def is_active (s : Session) : Bool := s.socket_open_

/-- Writing one line to `std::cout`. -/
def print (s : Session) (n : Notification) : Session :=
  { s with console := s.console ++ [n] }

/-- Call `socket_.close()`. -/
def close (s : Session) : Session := { s with socket_open_ := false }

/-- Member `send_message_from_queue`, up to the `async_write` call: nothing when
the queue is empty, otherwise a write of the front message is issued. -/
def send_message_from_queue (s : Session) : Session :=
  match s.msgs_to_send_ with
  | [] => s
  | front :: _ => { s with writes_in_flight := s.writes_in_flight ++ [front.bytes] }

/-- The section of `send` that holds `send_mutex_`: tests the queue and appends
the message. Returns `is_sending_in_progress`. -/
def send_locked (s : Session) (msg : Message) : Bool × Session :=
  (!s.msgs_to_send_.isEmpty, { s with msgs_to_send_ := s.msgs_to_send_ ++ [msg] })

/-- Member `send`. -/
def send (s : Session) (msg : Message) : Session :=
  if !s.is_active then s.print Notification.NoActiveSession
  else
    let r := s.send_locked msg
    if !r.1 then r.2.send_message_from_queue else r.2

/-- Member `wait_for_incoming_message`, up to the `async_read` call. -/
def wait_for_incoming_message (s : Session) : Session :=
  { s with pending_read := some ReadOp.header }

/-- Member `read_message_body`, up to the `async_read` call. -/
def read_message_body (s : Session) : Session :=
  { s with pending_read := some (ReadOp.body s.read_msg_.body_size) }

/-- Completion handler of the header read (the lambda passed in
`wait_for_incoming_message`); `ec` is true for an error code, `now` is the value
of `high_resolution_clock::now()`. -/
def on_header_read (s : Session) (ec : Bool) (now : TimePoint) : Session :=
  if ec then (s.print Notification.HeaderReadError).close
  else
    let r := s.read_msg_.decode_header
    let s1 := { s with read_msg_ := r.2 }
    if r.1 then
      if s1.read_msg_.is_text then s1.read_message_body
      else
        match s1.msg_send_times_.find s1.read_msg_.id with
        | some sent =>
          let elapsed_ms := duration_cast_microseconds (now - sent)
          let s2 := s1.print (Notification.LatencyReport s1.read_msg_.id elapsed_ms)
          wait_for_incoming_message
            { s2 with msg_send_times_ := s2.msg_send_times_.erase s1.read_msg_.id }
        | none => s1.wait_for_incoming_message
    else (s1.print Notification.MalformedMessage).wait_for_incoming_message

/-- Completion handler of the body read (the lambda passed in
`read_message_body`); `uninit` is the content of the buffer of the local `ack`
before its header is encoded. -/
def on_body_read (s : Session) (ec : Bool) (uninit : Nat → Byte) : Session :=
  if ec then (s.print Notification.BodyReadError).close
  else
    let s1 :=
      if s.read_msg_.is_text then
        let s2 := s.print (Notification.IncomingText s.read_msg_.body)
        let ack := (Message.create MsgType.ack s.read_msg_.id 0 uninit).encode_header
        s2.send ack
      else s
    s1.wait_for_incoming_message

/-- The section of the write completion handler that holds `send_mutex_`: records
the send time of a text message and pops the front of the queue. `none` when the
queue is empty, where `front()` has no defined result. -/
def on_write_locked (s : Session) (now : TimePoint) : Option Session :=
  match s.msgs_to_send_ with
  | [] => none
  | front :: rest =>
    let times :=
      if front.is_text then s.msg_send_times_.insert front.id now else s.msg_send_times_
    some { s with msg_send_times_ := times, msgs_to_send_ := rest }

/-- Completion handler of the write (the lambda passed in
`send_message_from_queue`). -/
def on_write_done (s : Session) (ec : Bool) (now : TimePoint) : Option Session :=
  if ec then some (s.print Notification.SendError).close
  else (s.on_write_locked now).map send_message_from_queue

/-- The reactor completes the outstanding read: on success the `bytes` received
are stored in `read_msg_`. `none` when there is no outstanding read, when the
byte count differs from the one asked for, or when the target range leaves the
buffer of `HEADER_SIZE + MAX_BODY_SIZE` bytes. -/
def complete_read (s : Session) (ec : Bool) (bytes : List Byte) : Option (ReadOp × Session) :=
  match s.pending_read with
  | none => none
  | some op =>
    if ec then some (op, { s with pending_read := none })
    else if bytes.length = op.length ∧ op.offset + op.length ≤ HEADER_SIZE + MAX_BODY_SIZE then
      some (op, { s with pending_read := none, read_msg_ := s.read_msg_.store op.offset bytes })
    else none

/-- The reactor completes the oldest write in flight: on success its buffer has
been transmitted. `none` when no write is in flight. -/
def complete_write (s : Session) (ec : Bool) : Option Session :=
  match s.writes_in_flight with
  | [] => none
  | w :: ws =>
    some { s with writes_in_flight := ws, wire := if ec then s.wire else s.wire ++ [w] }

end Session

/-- What can happen to a session: a call of `send`, or the completion of an
asynchronous read or write issued earlier. -/
inductive Event where
  | send (msg : Message)
  | read_done (ec : Bool) (bytes : List Byte) (now : TimePoint) (uninit : Nat → Byte)
  | write_done (ec : Bool) (now : TimePoint)

/-- One event, with calls of `send` and completion handlers running one at a
time. `none` when the event cannot occur in the state. -/
def Session.step (s : Session) : Event → Option Session
  | Event.send msg => some (s.send msg)
  | Event.read_done ec bytes now uninit =>
    match s.complete_read ec bytes with
    | none => none
    | some (ReadOp.header, s1) => some (s1.on_header_read ec now)
    | some (ReadOp.body _, s1) => some (s1.on_body_read ec uninit)
  | Event.write_done ec now =>
    match s.complete_write ec with
    | none => none
    | some s1 => s1.on_write_done ec now

/-- A sequence of events, oldest first. -/
def Session.run (s : Session) : List Event → Option Session
  | [] => some s
  | e :: es =>
    match s.step e with
    | none => none
    | some s1 => s1.run es

/-- Pipeline state `AwaitingHeader`: the socket is open and the header read is
outstanding. -/
def Session.AwaitingHeader (s : Session) : Prop :=
  s.socket_open_ = true ∧ s.pending_read = some ReadOp.header

/-- Pipeline state `AwaitingBody`: the socket is open and a body read of `n` bytes
is outstanding. -/
def Session.AwaitingBody (s : Session) (n : Nat) : Prop :=
  s.socket_open_ = true ∧ s.pending_read = some (ReadOp.body n)

/-- Pipeline state `Closed`. -/
def Session.Closed (s : Session) : Prop := s.socket_open_ = false

/-- The messages passed to `send` by a sequence of events, in call order. -/
def Event.sent : List Event → List Message
  | [] => []
  | Event.send msg :: es => msg :: Event.sent es
  | _ :: es => Event.sent es

/-- An event of the outbound side with no failure: a call of `send` or a write
that completes without error. -/
def Event.is_outbound : Event → Bool
  | Event.send _ => true
  | Event.write_done ec _ => !ec
  | Event.read_done _ _ _ _ => false

/-! ## Two threads

`Session::send` is called from the input thread (`main`) while the completion
handlers run on the reactor thread (`io_context.run()`). Each thread holds
`send_mutex_` only inside the sections below, so the sections of the two threads
interleave. -/

/-- Position of the input thread: outside `send`, or inside it between the locked
section and the test of the local `is_sending_in_progress`. -/
inductive SendPc where
  | idle
  | after_lock (is_sending_in_progress : Bool)
  deriving DecidableEq, Repr

/-- Position of the reactor thread: outside the write completion handler, or inside
it between the locked section and the call of `send_message_from_queue`. -/
inductive HandlerPc where
  | idle
  | after_lock
  deriving DecidableEq, Repr

/-- The session shared by the two threads, and where each thread stands. -/
structure Threads where
  session : Session
  input : SendPc
  reactor : HandlerPc

/-- One atomic section of one thread. -/
inductive Action where
  /-- Input thread: enters `send`, passes the `is_active` test and runs the locked
  test-and-append. -/
  | send_lock (msg : Message)
  /-- Input thread: `if (!is_sending_in_progress) send_message_from_queue();`. -/
  | send_start
  /-- Reactor thread: the oldest write completes without error and its handler runs
  the locked record-and-pop. -/
  | write_lock (now : TimePoint)
  /-- Reactor thread: the handler calls `send_message_from_queue`. -/
  | write_start

/-- One atomic section; `none` when the thread is not at that point, or when the
section has no defined result. -/
def Threads.step (t : Threads) : Action → Option Threads
  | Action.send_lock msg =>
    match t.input with
    | SendPc.idle =>
      if !t.session.is_active then
        some { t with session := t.session.print Notification.NoActiveSession }
      else
        let r := t.session.send_locked msg
        some { t with session := r.2, input := SendPc.after_lock r.1 }
    | SendPc.after_lock _ => none
  | Action.send_start =>
    match t.input with
    | SendPc.idle => none
    | SendPc.after_lock is_sending_in_progress =>
      some { t with
        session :=
          if !is_sending_in_progress then t.session.send_message_from_queue else t.session,
        input := SendPc.idle }
  | Action.write_lock now =>
    match t.reactor with
    | HandlerPc.idle =>
      match t.session.complete_write false with
      | none => none
      | some s1 =>
        match s1.on_write_locked now with
        | none => none
        | some s2 => some { t with session := s2, reactor := HandlerPc.after_lock }
    | HandlerPc.after_lock => none
  | Action.write_start =>
    match t.reactor with
    | HandlerPc.idle => none
    | HandlerPc.after_lock =>
      some { t with session := t.session.send_message_from_queue, reactor := HandlerPc.idle }

/-- A sequence of atomic sections, oldest first. -/
def Threads.run (t : Threads) : List Action → Option Threads
  | [] => some t
  | a :: as =>
    match t.step a with
    | none => none
    | some t1 => t1.run as

/-! ## Construction and the incoming byte stream -/

/-- Constructor `Message()`: text type and id 0; the buffer and `body_size_` are not
initialised and hold `uninit_data` and `uninit_size`. -/
def Message.default (uninit_data : Nat → Byte) (uninit_size : Nat) : Message :=
  { msg_type_ := MsgType.text, msg_id_ := 0, data_ := uninit_data, body_size_ := uninit_size }

/-- Constructor `Session(tcp::socket socket)`, given a connected socket: `read_msg_`
is default-constructed, the queue and the table are empty. -/
def Session.create (uninit_data : Nat → Byte) (uninit_size : Nat) : Session :=
  { socket_open_ := true, read_msg_ := Message.default uninit_data uninit_size,
    msgs_to_send_ := [], msg_send_times_ := SendTimes.empty, pending_read := none,
    writes_in_flight := [], console := [], wire := [] }

/-- Member `start`. -/
def Session.start (s : Session) : Session := s.wait_for_incoming_message

/-- The outstanding `async_read` served from `stream`, the bytes the peer has sent
that no read has consumed yet: it completes without error with exactly the number of
bytes it asked for, taken from the front, and the remaining bytes wait for the next
read. `none` when no read is outstanding or the stream is too short to complete it. -/
def Session.receive (s : Session) (stream : List Byte) (now : TimePoint)
    (uninit : Nat → Byte) : Option (Session × List Byte) :=
  match s.pending_read with
  | none => none
  | some op =>
    if stream.length < op.length then none
    else
      match s.step (Event.read_done false (stream.take op.length) now uninit) with
      | none => none
      | some s1 => some (s1, stream.drop op.length)

/-! ## server.h -/

/-- Class `Server`: the member `current_session_` (null until a connection has been
accepted) and the lines the server itself writes to `std::cout`. -/
structure Server where
  current_session_ : Option Session
  console : List Notification

/-- Member `Server::send`. -/
def Server.send (sv : Server) (msg : Message) : Server :=
  match sv.current_session_ with
  | some cs => { sv with current_session_ := some (cs.send msg) }
  | none => { sv with console := sv.console ++ [Notification.NoActiveClientSession] }

/-! ## chat.cpp: the input loop of `main` -/

/-- The variables of `main` that the input loop reads and writes: the mode, the
objects behind `server` (used in server mode) and `session` (used in client mode)
and `msg_id`; the sizes printed in `(message was truncated to N characters)` lines;
and, as an observer, the arguments of the calls of `send` in call order. -/
structure InputLoop where
  is_server_mode : Bool
  server : Server
  session : Session
  msg_id : Nat
  truncations : List Nat
  passed : List Message

/-- One iteration of `while (std::getline(std::cin, line))` for the line `line`;
`uninit` is the content of the buffer of the local `msg` after construction. -/
def InputLoop.on_line (st : InputLoop) (line : List Byte) (uninit : Nat → Byte) : InputLoop :=
  let resized := line.length > MAX_BODY_SIZE
  let line1 := if resized then line.take MAX_BODY_SIZE else line
  let st1 := if resized then { st with truncations := st.truncations ++ [line1.length] } else st
  let msg := Message.create MsgType.text st1.msg_id line1.length uninit
  if msg.body_size = 0 then st1
  else
    let msg1 := (msg.store HEADER_SIZE (line1.take msg.body_size)).encode_header
    let st2 :=
      if st1.is_server_mode then { st1 with server := st1.server.send msg1 }
      else { st1 with session := st1.session.send msg1 }
    { st2 with msg_id := (st2.msg_id + 1) % 2 ^ 32, passed := st2.passed ++ [msg1] }

/-- The input loop over the lines read from `std::cin`, each with the content of the
uninitialised buffer of its `msg`. -/
def InputLoop.run (st : InputLoop) : List (List Byte × (Nat → Byte)) → InputLoop
  | [] => st
  | l :: ls => (st.on_line l.1 l.2).run ls

/-- The state of `main` when the loop is entered: `msg_id` is 1. -/
def InputLoop.enter (is_server_mode : Bool) (server : Server) (session : Session) : InputLoop :=
  { is_server_mode := is_server_mode, server := server, session := session, msg_id := 1,
    truncations := [], passed := [] }

/-- The non-empty lines of the input, in input order. -/
def InputLoop.nonempty_lines (lines : List (List Byte × (Nat → Byte))) : List (List Byte) :=
  (lines.map Prod.fst).filter (fun l => !l.isEmpty)

/-! ## Sample values -/

/-- A session right after `start()`: open socket, header read outstanding, nothing
queued, nothing sent. -/
def sample_session : Session :=
  { socket_open_ := true, read_msg_ := { msg_type_ := MsgType.text, msg_id_ := 0,
                                         data_ := fun _ => 0, body_size_ := 0 },
    msgs_to_send_ := [], msg_send_times_ := SendTimes.empty,
    pending_read := some ReadOp.header, writes_in_flight := [], console := [], wire := [] }

/-- An encoded text message with the given id and the one body byte `a`. -/
def sample_msg (id : Nat) : Message :=
  (Message.create MsgType.text id 1 (fun _ => 97)).encode_header


/-- A text message with id 7 and the two body bytes `hi`, header not yet encoded. -/
def sample_text : Message :=
  { msg_type_ := MsgType.text, msg_id_ := 7,
    data_ := fun i => if i = 7 then 104 else if i = 8 then 105 else 0, body_size_ := 2 }

/-- A default-constructed message with a zeroed buffer. -/
def sample_blank : Message :=
  { msg_type_ := MsgType.text, msg_id_ := 0, data_ := fun _ => 0, body_size_ := 0 }

/-- Both threads outside their sections, on a session that has just started. -/
def race_start : Threads :=
  { session := sample_session, input := SendPc.idle, reactor := HandlerPc.idle }

/-- An interleaving of two calls of `send` on the input thread with one write
completion on the reactor thread: the first message is sent and its write completes;
the handler pops it; before the handler calls `send_message_from_queue`, the input
thread finds the queue empty and appends the second message; then both threads call
`send_message_from_queue`. -/
def race_schedule : List Action :=
  [Action.send_lock (sample_msg 1), Action.send_start, Action.write_lock 10,
    Action.send_lock (sample_msg 2), Action.write_start, Action.send_start]

/-- A session that has written the text message with id 7 at tick 1000 and has then
been given a second message with the same id, whose write is in flight. -/
def sample_repeat : Session :=
  (sample_session.run [Event.send (sample_msg 7), Event.write_done false 1000,
    Event.send (sample_msg 7)]).getD sample_session

/-! ## Theorems: message.h -/

theorem Message.header_bytes (m : Message) :
    (List.range HEADER_SIZE).map m.data_ =
      [m.data_ 0, m.data_ 1, m.data_ 2, m.data_ 3, m.data_ 4, m.data_ 5, m.data_ 6] := rfl

theorem Message.bytes_eq (m : Message) :
    m.bytes = (List.range HEADER_SIZE).map m.data_ ++ m.body := by
  unfold Message.bytes Message.size Message.body Message.body_size
  rw [List.range_add, List.map_append, List.map_map]
  rfl

theorem Message.length_body (m : Message) : m.body.length = m.body_size_ := by
  simp [Message.body, Message.body_size]

theorem Message.length_bytes (m : Message) : m.bytes.length = HEADER_SIZE + m.body_size_ := by
  simp [Message.bytes, Message.size]

theorem Message.encode_header_data_ge (m : Message) (i : Nat) (h : HEADER_SIZE ≤ i) :
    m.encode_header.data_ i = m.data_ i := by
  unfold HEADER_SIZE at h
  simp only [Message.encode_header]
  rw [if_neg (by omega), if_neg (by omega), if_neg (by omega), if_neg (by omega),
    if_neg (by omega), if_neg (by omega), if_neg (by omega)]

theorem Message.encode_header_body (m : Message) : m.encode_header.body = m.body := by
  unfold Message.body Message.body_size
  apply List.map_congr_left
  intro i _
  exact Message.encode_header_data_ge m (HEADER_SIZE + i) (Nat.le_add_right _ _)

theorem Message.store_data_lt (m : Message) (off : Nat) (bs : List Byte) (i : Nat)
    (h : i < bs.length) : (m.store off bs).data_ (off + i) = bs.get ⟨i, h⟩ := by
  have h2 : off ≤ off + i ∧ off + i - off < bs.length := ⟨by omega, by simpa using h⟩
  simp only [Message.store, h2, and_self, dite_true]
  congr 1
  ext
  simp

theorem Message.store_body (m : Message) (bs : List Byte) (h : bs.length = m.body_size_) :
    (m.store HEADER_SIZE bs).body = bs := by
  apply List.ext_getElem
  · simp [Message.body, Message.body_size, Message.store, h]
  · intro i h1 h2
    simp only [Message.body, List.getElem_map, List.getElem_range]
    rw [Message.store_data_lt m HEADER_SIZE bs i h2]
    rfl

theorem Message.decode_header_of_text (m : Message) (h0 : (m.data_ 0).val = 0)
    (hn : Message.ntohs_at5 m.data_ ≤ MAX_BODY_SIZE) :
    m.decode_header =
      (true, { m with msg_type_ := MsgType.text, msg_id_ := Message.ntohl_at1 m.data_,
                      body_size_ := Message.ntohs_at5 m.data_ }) := by
  simp only [Message.decode_header, h0]
  rw [if_neg (by simpa using hn)]

theorem Message.decode_header_of_ack (m : Message) (h0 : (m.data_ 0).val = 1)
    (hn : Message.ntohs_at5 m.data_ ≤ MAX_BODY_SIZE) :
    m.decode_header =
      (true, { m with msg_type_ := MsgType.ack, msg_id_ := Message.ntohl_at1 m.data_,
                      body_size_ := Message.ntohs_at5 m.data_ }) := by
  simp only [Message.decode_header, h0]
  rw [if_neg (by simpa using hn)]

theorem Message.decode_header_of_unknown (m : Message) (h0 : (m.data_ 0).val ≠ 0)
    (h1 : (m.data_ 0).val ≠ 1) : m.decode_header = (false, m) := by
  unfold Message.decode_header
  split
  · next h => exact absurd h h0
  · next h => exact absurd h h1
  · rfl

theorem Message.decode_header_of_large (m : Message)
    (hn : MAX_BODY_SIZE < Message.ntohs_at5 m.data_) : m.decode_header.1 = false := by
  unfold Message.decode_header
  split
  · simp only []
    rw [if_pos hn]
  · simp only []
    rw [if_pos hn]
  · rfl

theorem Message.decode_header_fails_iff (m : Message) :
    m.decode_header.1 = false ↔
      ((m.data_ 0).val ≠ 0 ∧ (m.data_ 0).val ≠ 1) ∨
        MAX_BODY_SIZE < Message.ntohs_at5 m.data_ := by
  constructor
  · intro h
    by_contra hc
    push_neg at hc
    obtain ⟨hk, hn⟩ := hc
    by_cases h0 : (m.data_ 0).val = 0
    · rw [Message.decode_header_of_text m h0 hn] at h
      exact Bool.noConfusion h
    · rw [Message.decode_header_of_ack m (hk h0) hn] at h
      exact Bool.noConfusion h
  · rintro (⟨h0, h1⟩ | hn)
    · rw [Message.decode_header_of_unknown m h0 h1]
    · exact Message.decode_header_of_large m hn

/-- The data of a buffer after the seven header bytes have been received. -/
theorem Message.store_header_data (m : Message) (b0 b1 b2 b3 b4 b5 b6 : Byte) :
    (m.store 0 [b0, b1, b2, b3, b4, b5, b6]).data_ 0 = b0 ∧
    (m.store 0 [b0, b1, b2, b3, b4, b5, b6]).data_ 1 = b1 ∧
    (m.store 0 [b0, b1, b2, b3, b4, b5, b6]).data_ 2 = b2 ∧
    (m.store 0 [b0, b1, b2, b3, b4, b5, b6]).data_ 3 = b3 ∧
    (m.store 0 [b0, b1, b2, b3, b4, b5, b6]).data_ 4 = b4 ∧
    (m.store 0 [b0, b1, b2, b3, b4, b5, b6]).data_ 5 = b5 ∧
    (m.store 0 [b0, b1, b2, b3, b4, b5, b6]).data_ 6 = b6 :=
  ⟨rfl, rfl, rfl, rfl, rfl, rfl, rfl⟩

/-- C3. Header rejection: for every seven header bytes `b0 .. b6` received into
the read buffer, `decode_header` fails exactly when `b0` is neither 0 nor 1 or the
big-endian value of `b5 b6` exceeds 1024; in every other case it succeeds and
leaves the type given by `b0`, the id given by `b1 .. b4` (big-endian) and the body
size given by `b5 b6` (big-endian). -/
theorem decode_header_rejection (m : Message) (b0 b1 b2 b3 b4 b5 b6 : Byte) :
    ((m.store 0 [b0, b1, b2, b3, b4, b5, b6]).decode_header.1 = false ↔
        ((b0.val ≠ 0 ∧ b0.val ≠ 1) ∨ 1024 < b5.val * 256 + b6.val)) ∧
    ((((b0.val ≠ 0 ∧ b0.val ≠ 1) ∨ 1024 < b5.val * 256 + b6.val) ∧
        (m.store 0 [b0, b1, b2, b3, b4, b5, b6]).decode_header.1 = false) ∨
      (¬ ((b0.val ≠ 0 ∧ b0.val ≠ 1) ∨ 1024 < b5.val * 256 + b6.val) ∧
        (m.store 0 [b0, b1, b2, b3, b4, b5, b6]).decode_header.1 = true ∧
        (m.store 0 [b0, b1, b2, b3, b4, b5, b6]).decode_header.2.msg_type_ =
          (if b0.val = 0 then MsgType.text else MsgType.ack) ∧
        (m.store 0 [b0, b1, b2, b3, b4, b5, b6]).decode_header.2.id =
          b1.val * 16777216 + b2.val * 65536 + b3.val * 256 + b4.val ∧
        (m.store 0 [b0, b1, b2, b3, b4, b5, b6]).decode_header.2.body_size =
          b5.val * 256 + b6.val)) := by
  obtain ⟨e0, e1, e2, e3, e4, e5, e6⟩ := Message.store_header_data m b0 b1 b2 b3 b4 b5 b6
  generalize m.store 0 [b0, b1, b2, b3, b4, b5, b6] = r at e0 e1 e2 e3 e4 e5 e6
  have hs : Message.ntohs_at5 r.data_ = b5.val * 256 + b6.val := by
    simp [Message.ntohs_at5, e5, e6]
  have hl : Message.ntohl_at1 r.data_ =
      b1.val * 16777216 + b2.val * 65536 + b3.val * 256 + b4.val := by
    simp [Message.ntohl_at1, e1, e2, e3, e4]
  have hiff := Message.decode_header_fails_iff r
  rw [hs, e0] at hiff
  simp only [MAX_BODY_SIZE] at hiff
  refine ⟨hiff, ?_⟩
  by_cases hbad : (b0.val ≠ 0 ∧ b0.val ≠ 1) ∨ 1024 < b5.val * 256 + b6.val
  · exact Or.inl ⟨hbad, hiff.mpr hbad⟩
  · right
    refine ⟨hbad, ?_⟩
    push_neg at hbad
    obtain ⟨hk, hn⟩ := hbad
    have hn2 : Message.ntohs_at5 r.data_ ≤ MAX_BODY_SIZE := by rw [hs]; exact hn
    by_cases h0 : b0.val = 0
    · rw [Message.decode_header_of_text r (by rw [e0]; exact h0) hn2]
      simp [Message.id, Message.body_size, h0, hs, hl]
    · rw [Message.decode_header_of_ack r (by rw [e0]; exact hk h0) hn2]
      simp [Message.id, Message.body_size, h0, hs, hl]

theorem to_byte_val (n : Nat) : (to_byte n).val = n % 256 := rfl

/-- The seven header bytes that `encode_header` leaves in the buffer. -/
theorem Message.encode_header_data (m : Message) :
    (m.encode_header.data_ 0).val = (if m.msg_type_ = MsgType.text then 0 else 1) ∧
    (m.encode_header.data_ 1).val = m.msg_id_ % 2 ^ 32 / 2 ^ 24 % 256 ∧
    (m.encode_header.data_ 2).val = m.msg_id_ % 2 ^ 32 / 2 ^ 16 % 256 ∧
    (m.encode_header.data_ 3).val = m.msg_id_ % 2 ^ 32 / 2 ^ 8 % 256 ∧
    (m.encode_header.data_ 4).val = m.msg_id_ % 2 ^ 32 % 256 ∧
    (m.encode_header.data_ 5).val = m.body_size_ % 2 ^ 16 / 2 ^ 8 % 256 ∧
    (m.encode_header.data_ 6).val = m.body_size_ % 2 ^ 16 % 256 := by
  refine ⟨?_, rfl, rfl, rfl, rfl, rfl, rfl⟩
  cases h : m.msg_type_ <;> simp [Message.encode_header, h]

theorem Message.encode_header_ntohl (m : Message) (hid : m.msg_id_ < 2 ^ 32) :
    Message.ntohl_at1 m.encode_header.data_ = m.msg_id_ := by
  obtain ⟨_, e1, e2, e3, e4, _, _⟩ := Message.encode_header_data m
  unfold Message.ntohl_at1
  rw [e1, e2, e3, e4]
  omega

theorem Message.encode_header_ntohs (m : Message) (hn : m.body_size_ ≤ MAX_BODY_SIZE) :
    Message.ntohs_at5 m.encode_header.data_ = m.body_size_ := by
  obtain ⟨_, _, _, _, _, e5, e6⟩ := Message.encode_header_data m
  unfold MAX_BODY_SIZE at hn
  unfold Message.ntohs_at5
  rw [e5, e6]
  omega

/-- C2. Wire layout: for a message with a 32-bit id and body size `n ≤ 1024`, the
`size()` bytes of the buffer after `encode_header` are `7 + n` bytes: byte 0 is 0
for a text message and 1 for an acknowledgement, bytes 1-4 are the id in
big-endian order, bytes 5-6 are `n` in big-endian order and the remaining `n`
bytes are the body, unchanged. -/
theorem encode_wire_layout (m : Message) (hid : m.msg_id_ < 2 ^ 32)
    (hn : m.body_size_ ≤ MAX_BODY_SIZE) :
    m.encode_header.size = 7 + m.body_size_ ∧
    m.encode_header.bytes.length = 7 + m.body_size_ ∧
    ∃ k b1 b2 b3 b4 b5 b6 : Byte,
      m.encode_header.bytes = k :: b1 :: b2 :: b3 :: b4 :: b5 :: b6 :: m.body ∧
      k.val = (if m.is_text = true then 0 else 1) ∧
      b1.val * 16777216 + b2.val * 65536 + b3.val * 256 + b4.val = m.msg_id_ ∧
      b5.val * 256 + b6.val = m.body_size_ := by
  refine ⟨rfl, Message.length_bytes _, m.encode_header.data_ 0, m.encode_header.data_ 1,
    m.encode_header.data_ 2, m.encode_header.data_ 3, m.encode_header.data_ 4,
    m.encode_header.data_ 5, m.encode_header.data_ 6, ?_, ?_, ?_, ?_⟩
  · rw [Message.bytes_eq, Message.header_bytes, Message.encode_header_body]
    rfl
  · rw [(Message.encode_header_data m).1]
    cases h : m.msg_type_ <;> simp [Message.is_text, h]
  · have h := Message.encode_header_ntohl m hid
    unfold Message.ntohl_at1 at h
    omega
  · have h := Message.encode_header_ntohs m hn
    unfold Message.ntohs_at5 at h
    omega

/-- Witness for `encode_wire_layout`: the text message with id 7 and body `hi`. -/
theorem encode_wire_layout_witness :
    (sample_text.msg_id_ < 2 ^ 32 ∧ sample_text.body_size_ ≤ MAX_BODY_SIZE) ∧
    sample_text.encode_header.size = 7 + sample_text.body_size_ ∧
    sample_text.encode_header.bytes.length = 7 + sample_text.body_size_ ∧
    ∃ k b1 b2 b3 b4 b5 b6 : Byte,
      sample_text.encode_header.bytes = k :: b1 :: b2 :: b3 :: b4 :: b5 :: b6 :: sample_text.body ∧
      k.val = (if sample_text.is_text = true then 0 else 1) ∧
      b1.val * 16777216 + b2.val * 65536 + b3.val * 256 + b4.val = sample_text.msg_id_ ∧
      b5.val * 256 + b6.val = sample_text.body_size_ :=
  ⟨⟨by decide, by decide⟩, encode_wire_layout sample_text (by decide) (by decide)⟩

/-- C1. Round trip: for a message `f` of either type with a 32-bit id and body size
`n ≤ 1024`, a receiver that stores the first 7 transmitted bytes in its read
buffer `r`, runs `decode_header` and then stores the next `body_size()` transmitted
bytes in the body area, finds the decoding successful and holds the type, id, body
size and body of `f`. -/
theorem encode_decode_round_trip (f r : Message) (hid : f.msg_id_ < 2 ^ 32)
    (hn : f.body_size_ ≤ MAX_BODY_SIZE) :
    ((r.store 0 (f.encode_header.bytes.take HEADER_SIZE)).decode_header).1 = true ∧
    ((r.store 0 (f.encode_header.bytes.take HEADER_SIZE)).decode_header).2.msg_type_ =
      f.msg_type_ ∧
    ((r.store 0 (f.encode_header.bytes.take HEADER_SIZE)).decode_header).2.id = f.id ∧
    ((r.store 0 (f.encode_header.bytes.take HEADER_SIZE)).decode_header).2.body_size =
      f.body_size ∧
    (((r.store 0 (f.encode_header.bytes.take HEADER_SIZE)).decode_header).2.store HEADER_SIZE
      ((f.encode_header.bytes.drop HEADER_SIZE).take
        ((r.store 0 (f.encode_header.bytes.take HEADER_SIZE)).decode_header).2.body_size)).body =
      f.body := by
  have htake : f.encode_header.bytes.take HEADER_SIZE =
      [f.encode_header.data_ 0, f.encode_header.data_ 1, f.encode_header.data_ 2,
        f.encode_header.data_ 3, f.encode_header.data_ 4, f.encode_header.data_ 5,
        f.encode_header.data_ 6] := by
    rw [Message.bytes_eq, Message.header_bytes]
    rfl
  have hdrop : f.encode_header.bytes.drop HEADER_SIZE = f.body := by
    rw [Message.bytes_eq, Message.header_bytes, Message.encode_header_body]
    rfl
  rw [htake, hdrop]
  obtain ⟨e0, e1, e2, e3, e4, e5, e6⟩ := Message.store_header_data r
    (f.encode_header.data_ 0) (f.encode_header.data_ 1) (f.encode_header.data_ 2)
    (f.encode_header.data_ 3) (f.encode_header.data_ 4) (f.encode_header.data_ 5)
    (f.encode_header.data_ 6)
  generalize r.store 0 [f.encode_header.data_ 0, f.encode_header.data_ 1,
    f.encode_header.data_ 2, f.encode_header.data_ 3, f.encode_header.data_ 4,
    f.encode_header.data_ 5, f.encode_header.data_ 6] = q at e0 e1 e2 e3 e4 e5 e6
  have hl : Message.ntohl_at1 q.data_ = f.msg_id_ := by
    rw [← Message.encode_header_ntohl f hid]
    simp only [Message.ntohl_at1, e1, e2, e3, e4]
  have hs : Message.ntohs_at5 q.data_ = f.body_size_ := by
    rw [← Message.encode_header_ntohs f hn]
    simp only [Message.ntohs_at5, e5, e6]
  have hs2 : Message.ntohs_at5 q.data_ ≤ MAX_BODY_SIZE := by rw [hs]; exact hn
  have hk := (Message.encode_header_data f).1
  have hbody : ∀ t : MsgType,
      (Message.store { q with msg_type_ := t, msg_id_ := f.msg_id_, body_size_ := f.body_size_ }
        HEADER_SIZE (f.body.take f.body_size_)).body = f.body := by
    intro t
    rw [List.take_of_length_le (by rw [Message.length_body])]
    exact Message.store_body _ _ (Message.length_body f)
  cases ht : f.msg_type_
  · rw [ht] at hk
    rw [Message.decode_header_of_text q (by rw [e0]; simpa using hk) hs2, hl, hs]
    exact ⟨rfl, rfl, rfl, rfl, hbody _⟩
  · rw [ht] at hk
    rw [Message.decode_header_of_ack q (by rw [e0]; simpa using hk) hs2, hl, hs]
    exact ⟨rfl, rfl, rfl, rfl, hbody _⟩

/-- Witness for `encode_decode_round_trip`: the text message with id 7 and body `hi`
received into a zeroed buffer. -/
theorem encode_decode_round_trip_witness :
    (sample_text.msg_id_ < 2 ^ 32 ∧ sample_text.body_size_ ≤ MAX_BODY_SIZE) ∧
    ((sample_blank.store 0
      (sample_text.encode_header.bytes.take HEADER_SIZE)).decode_header).1 = true ∧
    ((sample_blank.store 0
      (sample_text.encode_header.bytes.take HEADER_SIZE)).decode_header).2.msg_type_ =
      sample_text.msg_type_ ∧
    ((sample_blank.store 0
      (sample_text.encode_header.bytes.take HEADER_SIZE)).decode_header).2.id = sample_text.id ∧
    ((sample_blank.store 0
      (sample_text.encode_header.bytes.take HEADER_SIZE)).decode_header).2.body_size =
      sample_text.body_size ∧
    (((sample_blank.store 0
      (sample_text.encode_header.bytes.take HEADER_SIZE)).decode_header).2.store HEADER_SIZE
      ((sample_text.encode_header.bytes.drop HEADER_SIZE).take
        ((sample_blank.store 0
          (sample_text.encode_header.bytes.take HEADER_SIZE)).decode_header).2.body_size)).body =
      sample_text.body :=
  ⟨⟨by decide, by decide⟩,
    encode_decode_round_trip sample_text sample_blank (by decide) (by decide)⟩

/-! ## Theorems: session.h, the receive side -/

/-- A successful header read in a state with the header read outstanding: the bytes
are stored at the start of the read buffer and the header handler runs. -/
theorem Session.step_header_read (s : Session) (hdr : List Byte) (now : TimePoint)
    (uninit : Nat → Byte) (hp : s.pending_read = some ReadOp.header)
    (hl : hdr.length = HEADER_SIZE) :
    s.step (Event.read_done false hdr now uninit) =
      some (Session.on_header_read
        { s with pending_read := none, read_msg_ := s.read_msg_.store 0 hdr } false now) := by
  simp [Session.step, Session.complete_read, hp, hl, ReadOp.length, ReadOp.offset, HEADER_SIZE]

/-- A successful body read of the length asked for, within the buffer: the bytes are
stored in the body area and the body handler runs. -/
theorem Session.step_body_read (s : Session) (n : Nat) (b : List Byte) (now : TimePoint)
    (uninit : Nat → Byte) (hp : s.pending_read = some (ReadOp.body n))
    (hl : b.length = n) (hn : n ≤ MAX_BODY_SIZE) :
    s.step (Event.read_done false b now uninit) =
      some (Session.on_body_read
        { s with pending_read := none, read_msg_ := s.read_msg_.store HEADER_SIZE b }
        false uninit) := by
  simp [Session.step, Session.complete_read, hp, hl, ReadOp.length, ReadOp.offset, hn]

/-- The header handler on a header that `decode_header` rejects. -/
theorem Session.on_header_read_malformed (s : Session) (now : TimePoint)
    (hbad : s.read_msg_.decode_header.1 = false) :
    s.on_header_read false now =
      { s with read_msg_ := s.read_msg_.decode_header.2,
               console := s.console ++ [Notification.MalformedMessage],
               pending_read := some ReadOp.header } := by
  simp [Session.on_header_read, hbad, Session.print, Session.wait_for_incoming_message]

/-- C4. Malformed header is tolerated: for a session in `AwaitingHeader` and seven
header bytes on which `decode_header` fails, the completed header read prints
`<Malformed message received>`, leaves the session in `AwaitingHeader` with the
socket open, and changes neither the outbound queue, the writes in flight nor the
table of send times. -/
theorem malformed_header_tolerated (s : Session) (b0 b1 b2 b3 b4 b5 b6 : Byte)
    (now : TimePoint) (uninit : Nat → Byte) (hs : s.AwaitingHeader)
    (hbad : (s.read_msg_.store 0 [b0, b1, b2, b3, b4, b5, b6]).decode_header.1 = false) :
    ∃ s1, s.step (Event.read_done false [b0, b1, b2, b3, b4, b5, b6] now uninit) = some s1 ∧
      s1.console = s.console ++ [Notification.MalformedMessage] ∧
      s1.AwaitingHeader ∧ s1.is_active = true ∧
      s1.msgs_to_send_ = s.msgs_to_send_ ∧
      s1.writes_in_flight = s.writes_in_flight ∧
      s1.msg_send_times_ = s.msg_send_times_ := by
  obtain ⟨hopen, hp⟩ := hs
  refine ⟨_, Session.step_header_read s _ now uninit hp rfl, ?_⟩
  rw [Session.on_header_read_malformed _ now hbad]
  exact ⟨rfl, ⟨hopen, rfl⟩, hopen, rfl, rfl, rfl⟩

/-- Witness for `malformed_header_tolerated`: a header whose first byte is 2, and a
header that declares a body of 1025 bytes. -/
theorem malformed_header_tolerated_witness :
    ((sample_session.AwaitingHeader ∧
      (sample_session.read_msg_.store 0 [2, 0, 0, 0, 7, 0, 0]).decode_header.1 = false) ∧
    ∃ s1, sample_session.step (Event.read_done false [2, 0, 0, 0, 7, 0, 0] 5 (fun _ => 0)) =
        some s1 ∧
      s1.console = sample_session.console ++ [Notification.MalformedMessage] ∧
      s1.AwaitingHeader ∧ s1.is_active = true ∧
      s1.msgs_to_send_ = sample_session.msgs_to_send_ ∧
      s1.writes_in_flight = sample_session.writes_in_flight ∧
      s1.msg_send_times_ = sample_session.msg_send_times_) ∧
    ((sample_session.AwaitingHeader ∧
      (sample_session.read_msg_.store 0 [0, 0, 0, 0, 7, 4, 1]).decode_header.1 = false) ∧
    ∃ s1, sample_session.step (Event.read_done false [0, 0, 0, 0, 7, 4, 1] 5 (fun _ => 0)) =
        some s1 ∧
      s1.console = sample_session.console ++ [Notification.MalformedMessage] ∧
      s1.AwaitingHeader ∧ s1.is_active = true ∧
      s1.msgs_to_send_ = sample_session.msgs_to_send_ ∧
      s1.writes_in_flight = sample_session.writes_in_flight ∧
      s1.msg_send_times_ = sample_session.msg_send_times_) :=
  ⟨⟨⟨⟨rfl, rfl⟩, by decide⟩,
    malformed_header_tolerated sample_session 2 0 0 0 7 0 0 5 (fun _ => 0) ⟨rfl, rfl⟩
      (by decide)⟩,
   ⟨⟨⟨rfl, rfl⟩, by decide⟩,
    malformed_header_tolerated sample_session 0 0 0 0 7 4 1 5 (fun _ => 0) ⟨rfl, rfl⟩
      (by decide)⟩⟩

theorem Message.is_text_of_is_ack (m : Message) (h : m.is_ack = true) : m.is_text = false := by
  cases ht : m.msg_type_ <;> simp_all [Message.is_ack, Message.is_text]

/-- The header handler on an acknowledgement whose id is not in the table. -/
theorem Session.on_header_read_ack_unknown (s : Session) (now : TimePoint)
    (hdec : s.read_msg_.decode_header.1 = true)
    (hack : s.read_msg_.decode_header.2.is_text = false)
    (hnot : s.msg_send_times_.find s.read_msg_.decode_header.2.id = none) :
    s.on_header_read false now =
      { s with read_msg_ := s.read_msg_.decode_header.2,
               pending_read := some ReadOp.header } := by
  simp [Session.on_header_read, hdec, hack, hnot, Session.wait_for_incoming_message]

/-- The header handler on an acknowledgement whose id is in the table. -/
theorem Session.on_header_read_ack_known (s : Session) (now sent : TimePoint)
    (hdec : s.read_msg_.decode_header.1 = true)
    (hack : s.read_msg_.decode_header.2.is_text = false)
    (hin : s.msg_send_times_.find s.read_msg_.decode_header.2.id = some sent) :
    s.on_header_read false now =
      { s with read_msg_ := s.read_msg_.decode_header.2,
               console := s.console ++ [Notification.LatencyReport
                 s.read_msg_.decode_header.2.id (duration_cast_microseconds (now - sent))],
               msg_send_times_ := s.msg_send_times_.erase s.read_msg_.decode_header.2.id,
               pending_read := some ReadOp.header } := by
  simp [Session.on_header_read, hdec, hack, hin, Session.wait_for_incoming_message,
    Session.print]

/-- The header handler on a text header: the body read is issued. -/
theorem Session.on_header_read_text (s : Session) (now : TimePoint)
    (hdec : s.read_msg_.decode_header.1 = true)
    (htext : s.read_msg_.decode_header.2.is_text = true) :
    s.on_header_read false now =
      { s with read_msg_ := s.read_msg_.decode_header.2,
               pending_read := some (ReadOp.body s.read_msg_.decode_header.2.body_size) } := by
  simp [Session.on_header_read, hdec, htext, Session.read_message_body]

/-- C8. Unmatched ack: for a session in `AwaitingHeader` and seven header bytes that
`decode_header` accepts as an acknowledgement whose id is not a key of the table of
send times, the completed header read prints nothing (no latency report, no error),
leaves the table, the outbound queue and the writes in flight unchanged, and the
session is in `AwaitingHeader` again, not `Closed`. -/
theorem unmatched_ack_ignored (s : Session) (b0 b1 b2 b3 b4 b5 b6 : Byte)
    (now : TimePoint) (uninit : Nat → Byte) (hs : s.AwaitingHeader)
    (hdec : (s.read_msg_.store 0 [b0, b1, b2, b3, b4, b5, b6]).decode_header.1 = true)
    (hack : (s.read_msg_.store 0 [b0, b1, b2, b3, b4, b5, b6]).decode_header.2.is_ack = true)
    (hnot : s.msg_send_times_.find
      (s.read_msg_.store 0 [b0, b1, b2, b3, b4, b5, b6]).decode_header.2.id = none) :
    ∃ s1, s.step (Event.read_done false [b0, b1, b2, b3, b4, b5, b6] now uninit) = some s1 ∧
      s1.console = s.console ∧
      s1.msg_send_times_ = s.msg_send_times_ ∧
      s1.msgs_to_send_ = s.msgs_to_send_ ∧
      s1.writes_in_flight = s.writes_in_flight ∧
      s1.AwaitingHeader ∧ ¬ s1.Closed := by
  obtain ⟨hopen, hp⟩ := hs
  refine ⟨_, Session.step_header_read s _ now uninit hp rfl, ?_⟩
  rw [Session.on_header_read_ack_unknown _ now hdec (Message.is_text_of_is_ack _ hack) hnot]
  refine ⟨rfl, rfl, rfl, rfl, ⟨hopen, rfl⟩, ?_⟩
  simp [Session.Closed, hopen]

/-- Witness for `unmatched_ack_ignored`: an acknowledgement of id 7 arriving at a
session that has sent nothing. -/
theorem unmatched_ack_ignored_witness :
    (sample_session.AwaitingHeader ∧
      (sample_session.read_msg_.store 0 [1, 0, 0, 0, 7, 0, 0]).decode_header.1 = true ∧
      (sample_session.read_msg_.store 0 [1, 0, 0, 0, 7, 0, 0]).decode_header.2.is_ack = true ∧
      sample_session.msg_send_times_.find
        (sample_session.read_msg_.store 0 [1, 0, 0, 0, 7, 0, 0]).decode_header.2.id = none) ∧
    ∃ s1, sample_session.step (Event.read_done false [1, 0, 0, 0, 7, 0, 0] 5 (fun _ => 0)) =
        some s1 ∧
      s1.console = sample_session.console ∧
      s1.msg_send_times_ = sample_session.msg_send_times_ ∧
      s1.msgs_to_send_ = sample_session.msgs_to_send_ ∧
      s1.writes_in_flight = sample_session.writes_in_flight ∧
      s1.AwaitingHeader ∧ ¬ s1.Closed :=
  ⟨⟨⟨rfl, rfl⟩, by decide, by decide, by decide⟩,
    unmatched_ack_ignored sample_session 1 0 0 0 7 0 0 5 (fun _ => 0) ⟨rfl, rfl⟩
      (by decide) (by decide) (by decide)⟩

theorem Message.store_header_ntohl (r : Message) (b0 b1 b2 b3 b4 b5 b6 : Byte) :
    Message.ntohl_at1 (r.store 0 [b0, b1, b2, b3, b4, b5, b6]).data_ =
      b1.val * 16777216 + b2.val * 65536 + b3.val * 256 + b4.val := by
  obtain ⟨_, e1, e2, e3, e4, _, _⟩ := Message.store_header_data r b0 b1 b2 b3 b4 b5 b6
  simp only [Message.ntohl_at1, e1, e2, e3, e4]
  norm_num

theorem Message.store_header_ntohs (r : Message) (b0 b1 b2 b3 b4 b5 b6 : Byte) :
    Message.ntohs_at5 (r.store 0 [b0, b1, b2, b3, b4, b5, b6]).data_ =
      b5.val * 256 + b6.val := by
  obtain ⟨_, _, _, _, _, e5, e6⟩ := Message.store_header_data r b0 b1 b2 b3 b4 b5 b6
  simp only [Message.ntohs_at5, e5, e6]
  norm_num

/-- Decoding a received header whose first byte is 0 and whose declared size is at
most 1024. -/
theorem Message.decode_store_text (r : Message) (b1 b2 b3 b4 b5 b6 : Byte)
    (hlen : b5.val * 256 + b6.val ≤ 1024) :
    (r.store 0 [0, b1, b2, b3, b4, b5, b6]).decode_header =
      (true, { r.store 0 [0, b1, b2, b3, b4, b5, b6] with
        msg_type_ := MsgType.text,
        msg_id_ := b1.val * 16777216 + b2.val * 65536 + b3.val * 256 + b4.val,
        body_size_ := b5.val * 256 + b6.val }) := by
  have hs := Message.store_header_ntohs r 0 b1 b2 b3 b4 b5 b6
  have hl := Message.store_header_ntohl r 0 b1 b2 b3 b4 b5 b6
  have h0 : ((r.store 0 [0, b1, b2, b3, b4, b5, b6]).data_ 0).val = 0 := rfl
  rw [Message.decode_header_of_text _ h0 (by rw [hs]; exact hlen), hs, hl]

/-- Decoding a received header whose first byte is 1 and whose declared size is at
most 1024. -/
theorem Message.decode_store_ack (r : Message) (b1 b2 b3 b4 b5 b6 : Byte)
    (hlen : b5.val * 256 + b6.val ≤ 1024) :
    (r.store 0 [1, b1, b2, b3, b4, b5, b6]).decode_header =
      (true, { r.store 0 [1, b1, b2, b3, b4, b5, b6] with
        msg_type_ := MsgType.ack,
        msg_id_ := b1.val * 16777216 + b2.val * 65536 + b3.val * 256 + b4.val,
        body_size_ := b5.val * 256 + b6.val }) := by
  have hs := Message.store_header_ntohs r 1 b1 b2 b3 b4 b5 b6
  have hl := Message.store_header_ntohl r 1 b1 b2 b3 b4 b5 b6
  have h0 : ((r.store 0 [1, b1, b2, b3, b4, b5, b6]).data_ 0).val = 1 := rfl
  rw [Message.decode_header_of_ack _ h0 (by rw [hs]; exact hlen), hs, hl]

/-- The transmitted bytes of the acknowledgement built by the body handler for a
message whose id was decoded from the bytes `b1 .. b4`. -/
theorem Message.ack_bytes (b1 b2 b3 b4 : Byte) (uninit : Nat → Byte) :
    (Message.create MsgType.ack
      (b1.val * 16777216 + b2.val * 65536 + b3.val * 256 + b4.val) 0
      uninit).encode_header.bytes = [1, b1, b2, b3, b4, 0, 0] := by
  have h1 := b1.isLt
  have h2 := b2.isLt
  have h3 := b3.isLt
  have h4 := b4.isLt
  rw [Message.bytes_eq, Message.header_bytes]
  have hb : ((Message.create MsgType.ack
      (b1.val * 16777216 + b2.val * 65536 + b3.val * 256 + b4.val) 0
      uninit).encode_header).body = [] := rfl
  rw [hb, List.append_nil]
  obtain ⟨e0, e1, e2, e3, e4, e5, e6⟩ := Message.encode_header_data (Message.create MsgType.ack
      (b1.val * 16777216 + b2.val * 65536 + b3.val * 256 + b4.val) 0 uninit)
  simp only [Message.create] at e0 e1 e2 e3 e4 e5 e6
  have f0 : ∀ x y : Byte, x.val = y.val → x = y := fun x y h => Fin.ext h
  have k0 := f0 _ 1 (by rw [e0]; rfl)
  have k1 := f0 _ b1 (by rw [e1]; omega)
  have k2 := f0 _ b2 (by rw [e2]; omega)
  have k3 := f0 _ b3 (by rw [e3]; omega)
  have k4 := f0 _ b4 (by rw [e4]; omega)
  have k5 := f0 _ 0 (by rw [e5]; rfl)
  have k6 := f0 _ 0 (by rw [e6]; rfl)
  simp only [Message.create]
  rw [k0, k1, k2, k3, k4, k5, k6]

/-- The body handler for a received text message on an open socket: the body is
printed, the acknowledgement is appended to the queue, a write is issued when the
queue was empty, and the next header read is issued. -/
theorem Session.on_body_read_text (s : Session) (uninit : Nat → Byte)
    (hopen : s.socket_open_ = true) (htext : s.read_msg_.is_text = true) :
    s.on_body_read false uninit =
      { s with
        console := s.console ++ [Notification.IncomingText s.read_msg_.body],
        msgs_to_send_ := s.msgs_to_send_ ++
          [(Message.create MsgType.ack s.read_msg_.id 0 uninit).encode_header],
        writes_in_flight := s.writes_in_flight ++
          (if s.msgs_to_send_.isEmpty then
            [(Message.create MsgType.ack s.read_msg_.id 0 uninit).encode_header.bytes]
          else []),
        pending_read := some ReadOp.header } := by
  cases hq : s.msgs_to_send_ <;>
    simp [Session.on_body_read, Session.send, Session.send_locked, Session.print,
      Session.is_active, Session.send_message_from_queue, Session.wait_for_incoming_message,
      hopen, htext, hq]

/-- A text header with declared size `n ≤ 1024` received in `AwaitingHeader`: only
the read buffer and the outstanding read change. -/
theorem Session.step_text_header (s : Session) (b1 b2 b3 b4 b5 b6 : Byte)
    (now : TimePoint) (uninit : Nat → Byte) (hs : s.AwaitingHeader)
    (hlen : b5.val * 256 + b6.val ≤ 1024) :
    ∃ s1, s.step (Event.read_done false [0, b1, b2, b3, b4, b5, b6] now uninit) = some s1 ∧
      s1.socket_open_ = true ∧
      s1.pending_read = some (ReadOp.body (b5.val * 256 + b6.val)) ∧
      s1.console = s.console ∧ s1.msgs_to_send_ = s.msgs_to_send_ ∧
      s1.writes_in_flight = s.writes_in_flight ∧
      s1.msg_send_times_ = s.msg_send_times_ ∧ s1.wire = s.wire ∧
      s1.read_msg_.is_text = true ∧
      s1.read_msg_.id = b1.val * 16777216 + b2.val * 65536 + b3.val * 256 + b4.val ∧
      s1.read_msg_.body_size_ = b5.val * 256 + b6.val := by
  obtain ⟨hopen, hp⟩ := hs
  have hd := Message.decode_store_text s.read_msg_ b1 b2 b3 b4 b5 b6 hlen
  have h1 := Session.step_header_read s [0, b1, b2, b3, b4, b5, b6] now uninit hp rfl
  rw [Session.on_header_read_text _ now (by simp only [hd]) (by simp only [hd]; rfl)] at h1
  simp only [hd] at h1
  exact ⟨_, h1, hopen, rfl, rfl, rfl, rfl, rfl, rfl, rfl, rfl, rfl⟩

/-- The body of a text message received on an open socket: the body is printed, the
acknowledgement is queued and the next header read is issued. -/
theorem Session.step_text_body (s : Session) (n : Nat) (b : List Byte) (now : TimePoint)
    (uninit : Nat → Byte) (hopen : s.socket_open_ = true)
    (hp : s.pending_read = some (ReadOp.body n)) (htext : s.read_msg_.is_text = true)
    (hsz : s.read_msg_.body_size_ = n) (hb : b.length = n) (hn : n ≤ MAX_BODY_SIZE) :
    ∃ s2, s.step (Event.read_done false b now uninit) = some s2 ∧
      s2.socket_open_ = true ∧ s2.pending_read = some ReadOp.header ∧
      s2.console = s.console ++ [Notification.IncomingText b] ∧
      s2.msgs_to_send_ = s.msgs_to_send_ ++
        [(Message.create MsgType.ack s.read_msg_.id 0 uninit).encode_header] ∧
      s2.writes_in_flight = s.writes_in_flight ++
        (if s.msgs_to_send_.isEmpty then
          [(Message.create MsgType.ack s.read_msg_.id 0 uninit).encode_header.bytes]
        else []) ∧
      s2.msg_send_times_ = s.msg_send_times_ ∧ s2.wire = s.wire := by
  have h2 := Session.step_body_read s n b now uninit hp hb hn
  rw [Session.on_body_read_text
    { s with pending_read := none, read_msg_ := s.read_msg_.store HEADER_SIZE b }
    uninit hopen htext] at h2
  have hbody : (s.read_msg_.store HEADER_SIZE b).body = b :=
    Message.store_body s.read_msg_ b (by rw [hb, hsz])
  refine ⟨_, h2, hopen, rfl, ?_, rfl, rfl, rfl, rfl⟩
  simp only [hbody]

/-- C9. Data frame delivery and acknowledgement: for a session in `AwaitingHeader`,
a header with first byte 0, id bytes `b1 .. b4` and declared size `n ≤ 1024`
(bytes `b5 b6`) moves it to `AwaitingBody n`; the following successful read of `n`
body bytes `b` prints exactly `b`, appends exactly one message to the outbound
queue, which is an acknowledgement with the same id and empty body whose transmitted
bytes are `1, b1, b2, b3, b4, 0, 0`, and leaves the session in `AwaitingHeader`. -/
theorem data_frame_delivery (s : Session) (b1 b2 b3 b4 b5 b6 : Byte) (b : List Byte)
    (now now2 : TimePoint) (uninit uninit2 : Nat → Byte) (hs : s.AwaitingHeader)
    (hlen : b5.val * 256 + b6.val ≤ 1024) (hb : b.length = b5.val * 256 + b6.val) :
    ∃ s1 s2 ack,
      s.step (Event.read_done false [0, b1, b2, b3, b4, b5, b6] now uninit) = some s1 ∧
      s1.AwaitingBody (b5.val * 256 + b6.val) ∧
      s1.console = s.console ∧ s1.msgs_to_send_ = s.msgs_to_send_ ∧
      s1.step (Event.read_done false b now2 uninit2) = some s2 ∧
      s2.console = s.console ++ [Notification.IncomingText b] ∧
      s2.msgs_to_send_ = s.msgs_to_send_ ++ [ack] ∧
      ack.is_ack = true ∧
      ack.id = b1.val * 16777216 + b2.val * 65536 + b3.val * 256 + b4.val ∧
      ack.body_size = 0 ∧
      ack.bytes = [1, b1, b2, b3, b4, 0, 0] ∧
      s2.AwaitingHeader := by
  obtain ⟨s1, h1, hopen1, hp1, hc1, hq1, _, _, _, htext1, hid1, hsz1⟩ :=
    Session.step_text_header s b1 b2 b3 b4 b5 b6 now uninit hs hlen
  obtain ⟨s2, h2, hopen2, hp2, hc2, hq2, _, _, _⟩ :=
    Session.step_text_body s1 (b5.val * 256 + b6.val) b now2 uninit2 hopen1 hp1 htext1 hsz1 hb hlen
  have hidmod : (b1.val * 16777216 + b2.val * 65536 + b3.val * 256 + b4.val) % 2 ^ 32 =
      b1.val * 16777216 + b2.val * 65536 + b3.val * 256 + b4.val := by
    have h1 := b1.isLt
    have h2 := b2.isLt
    have h3 := b3.isLt
    have h4 := b4.isLt
    omega
  rw [hid1] at hq2
  rw [hc1] at hc2
  rw [hq1] at hq2
  exact ⟨s1, s2, (Message.create MsgType.ack
    (b1.val * 16777216 + b2.val * 65536 + b3.val * 256 + b4.val) 0 uninit2).encode_header,
    h1, ⟨hopen1, hp1⟩, hc1, hq1, h2, hc2, hq2, rfl, hidmod, rfl,
    Message.ack_bytes b1 b2 b3 b4 uninit2, ⟨hopen2, hp2⟩⟩

/-- Witness for `data_frame_delivery`: the text message with id 1 and body `hi`. -/
theorem data_frame_delivery_witness :
    (sample_session.AwaitingHeader ∧ (0 : Byte).val * 256 + (2 : Byte).val ≤ 1024 ∧
      [(104 : Byte), 105].length = (0 : Byte).val * 256 + (2 : Byte).val) ∧
    ∃ s1 s2 ack,
      sample_session.step (Event.read_done false [0, 0, 0, 0, 1, 0, 2] 5 (fun _ => 0)) =
        some s1 ∧
      s1.AwaitingBody ((0 : Byte).val * 256 + (2 : Byte).val) ∧
      s1.console = sample_session.console ∧
      s1.msgs_to_send_ = sample_session.msgs_to_send_ ∧
      s1.step (Event.read_done false [104, 105] 6 (fun _ => 0)) = some s2 ∧
      s2.console = sample_session.console ++ [Notification.IncomingText [104, 105]] ∧
      s2.msgs_to_send_ = sample_session.msgs_to_send_ ++ [ack] ∧
      ack.is_ack = true ∧
      ack.id = (0 : Byte).val * 16777216 + (0 : Byte).val * 65536 + (0 : Byte).val * 256 +
        (1 : Byte).val ∧
      ack.body_size = 0 ∧
      ack.bytes = [1, 0, 0, 0, 1, 0, 0] ∧
      s2.AwaitingHeader :=
  ⟨⟨⟨rfl, rfl⟩, by decide, by decide⟩,
    data_frame_delivery sample_session 0 0 0 1 0 2 [104, 105] 5 6 (fun _ => 0) (fun _ => 0)
      ⟨rfl, rfl⟩ (by decide) (by decide)⟩

/-! ## Theorems: session.h, the send side -/

theorem SendTimes.find_insert_of_absent (t : SendTimes) (key : Nat) (v : TimePoint)
    (h : t.find key = none) (k : Nat) :
    (t.insert key v).find k = if k = key then some v else t.find k := by
  unfold SendTimes.find at h
  simp only [SendTimes.insert, SendTimes.find, h]

theorem SendTimes.insert_of_present (t : SendTimes) (key : Nat) (v old : TimePoint)
    (h : t.find key = some old) : t.insert key v = t := by
  unfold SendTimes.find at h
  simp only [SendTimes.insert, h]

theorem SendTimes.find_erase (t : SendTimes) (key k : Nat) :
    (t.erase key).find k = if k = key then none else t.find k := rfl

/-- A successful write completion with `h` at the front of the queue and `w` the
oldest write in flight. -/
theorem Session.step_write_done (s : Session) (h : Message) (rest : List Message)
    (w : List Byte) (ws : List (List Byte)) (now : TimePoint)
    (hq : s.msgs_to_send_ = h :: rest) (hw : s.writes_in_flight = w :: ws) :
    ∃ s1, s.step (Event.write_done false now) = some s1 ∧
      s1.msgs_to_send_ = rest ∧
      s1.msg_send_times_ =
        (if h.is_text = true then s.msg_send_times_.insert h.id now else s.msg_send_times_) ∧
      s1.writes_in_flight = ws ++ (rest.take 1).map Message.bytes ∧
      s1.wire = s.wire ++ [w] ∧
      s1.console = s.console ∧ s1.socket_open_ = s.socket_open_ ∧
      s1.pending_read = s.pending_read ∧ s1.read_msg_ = s.read_msg_ := by
  cases rest <;>
    simp [Session.step, Session.complete_write, Session.on_write_done, Session.on_write_locked,
      Session.send_message_from_queue, hq, hw]

/-- C10. Write completion bookkeeping: for a successful write completion with `h` at
the front of the outbound queue, the queue afterwards is the previous queue without
`h`; if `h` is a text message whose id is not in the table of send times, the table
afterwards is the previous table plus `h.id -> now`; if `h` is an acknowledgement,
the table is unchanged; and a write of the new front is issued when the remaining
queue is non-empty, and none is issued when it is empty. -/
theorem write_completion_bookkeeping (s : Session) (h : Message) (rest : List Message)
    (w : List Byte) (ws : List (List Byte)) (now : TimePoint)
    (hq : s.msgs_to_send_ = h :: rest) (hw : s.writes_in_flight = w :: ws) :
    ∃ s1, s.step (Event.write_done false now) = some s1 ∧
      s1.msgs_to_send_ = rest ∧
      (h.is_text = true → s.msg_send_times_.find h.id = none →
        ∀ k, s1.msg_send_times_.find k =
          if k = h.id then some now else s.msg_send_times_.find k) ∧
      (h.is_ack = true → s1.msg_send_times_ = s.msg_send_times_) ∧
      (∀ (front : Message) (tail : List Message), rest = front :: tail →
        s1.writes_in_flight = ws ++ [front.bytes]) ∧
      (rest = [] → s1.writes_in_flight = ws) ∧
      s1.wire = s.wire ++ [w] := by
  obtain ⟨s1, h1, hq1, ht1, hw1, hwire, _⟩ := Session.step_write_done s h rest w ws now hq hw
  refine ⟨s1, h1, hq1, ?_, ?_, ?_, ?_, hwire⟩
  · intro htext hfresh k
    rw [ht1, if_pos htext]
    exact SendTimes.find_insert_of_absent _ _ _ hfresh k
  · intro hack
    rw [ht1, if_neg (by rw [Message.is_text_of_is_ack h hack]; exact Bool.false_ne_true)]
  · intro front tail hr
    rw [hw1, hr]
    rfl
  · intro hr
    rw [hw1, hr]
    simp

/-- Witness for `write_completion_bookkeeping`: two text messages have been passed to
`send`; the write of the first is in flight and completes at tick 10. -/
theorem write_completion_bookkeeping_witness :
    (((sample_session.send (sample_msg 1)).send (sample_msg 2)).msgs_to_send_ =
        sample_msg 1 :: [sample_msg 2] ∧
      ((sample_session.send (sample_msg 1)).send (sample_msg 2)).writes_in_flight =
        (sample_msg 1).bytes :: []) ∧
    ∃ s1, ((sample_session.send (sample_msg 1)).send (sample_msg 2)).step
        (Event.write_done false 10) = some s1 ∧
      s1.msgs_to_send_ = [sample_msg 2] ∧
      ((sample_msg 1).is_text = true →
        ((sample_session.send (sample_msg 1)).send (sample_msg 2)).msg_send_times_.find
          (sample_msg 1).id = none →
        ∀ k, s1.msg_send_times_.find k =
          if k = (sample_msg 1).id then some 10
          else ((sample_session.send (sample_msg 1)).send (sample_msg 2)).msg_send_times_.find
            k) ∧
      ((sample_msg 1).is_ack = true →
        s1.msg_send_times_ =
          ((sample_session.send (sample_msg 1)).send (sample_msg 2)).msg_send_times_) ∧
      (∀ (front : Message) (tail : List Message), [sample_msg 2] = front :: tail →
        s1.writes_in_flight = [] ++ [front.bytes]) ∧
      ([sample_msg 2] = [] → s1.writes_in_flight = []) ∧
      s1.wire = ((sample_session.send (sample_msg 1)).send (sample_msg 2)).wire ++
        [(sample_msg 1).bytes] :=
  ⟨⟨rfl, rfl⟩,
    write_completion_bookkeeping ((sample_session.send (sample_msg 1)).send (sample_msg 2))
      (sample_msg 1) [sample_msg 2] (sample_msg 1).bytes [] 10 rfl rfl⟩

/-! ## Theorems: latency -/

/-- An acknowledgement header received in `AwaitingHeader` whose id is in the table:
one latency line is printed and the entry is erased. -/
theorem Session.step_ack_header_known (s : Session) (b1 b2 b3 b4 b5 b6 : Byte)
    (now sent : TimePoint) (uninit : Nat → Byte) (hs : s.AwaitingHeader)
    (hlen : b5.val * 256 + b6.val ≤ 1024)
    (hin : s.msg_send_times_.find
      (b1.val * 16777216 + b2.val * 65536 + b3.val * 256 + b4.val) = some sent) :
    ∃ s1, s.step (Event.read_done false [1, b1, b2, b3, b4, b5, b6] now uninit) = some s1 ∧
      s1.console = s.console ++ [Notification.LatencyReport
        (b1.val * 16777216 + b2.val * 65536 + b3.val * 256 + b4.val)
        (duration_cast_microseconds (now - sent))] ∧
      s1.msg_send_times_ = s.msg_send_times_.erase
        (b1.val * 16777216 + b2.val * 65536 + b3.val * 256 + b4.val) ∧
      s1.AwaitingHeader ∧ s1.msgs_to_send_ = s.msgs_to_send_ ∧
      s1.writes_in_flight = s.writes_in_flight := by
  obtain ⟨hopen, hp⟩ := hs
  have hd := Message.decode_store_ack s.read_msg_ b1 b2 b3 b4 b5 b6 hlen
  have h1 := Session.step_header_read s [1, b1, b2, b3, b4, b5, b6] now uninit hp rfl
  rw [Session.on_header_read_ack_known _ now sent (by simp only [hd]) (by simp only [hd]; rfl)
    (by simp only [hd]; exact hin)] at h1
  simp only [hd] at h1
  exact ⟨_, h1, rfl, rfl, ⟨hopen, rfl⟩, rfl, rfl⟩

/-- An acknowledgement header received in `AwaitingHeader` whose id is not in the
table: nothing but the read buffer changes. -/
theorem Session.step_ack_header_unknown (s : Session) (b1 b2 b3 b4 b5 b6 : Byte)
    (now : TimePoint) (uninit : Nat → Byte) (hs : s.AwaitingHeader)
    (hlen : b5.val * 256 + b6.val ≤ 1024)
    (hnot : s.msg_send_times_.find
      (b1.val * 16777216 + b2.val * 65536 + b3.val * 256 + b4.val) = none) :
    ∃ s1, s.step (Event.read_done false [1, b1, b2, b3, b4, b5, b6] now uninit) = some s1 ∧
      s1.console = s.console ∧ s1.msg_send_times_ = s.msg_send_times_ ∧
      s1.AwaitingHeader ∧ s1.msgs_to_send_ = s.msgs_to_send_ ∧
      s1.writes_in_flight = s.writes_in_flight := by
  obtain ⟨hopen, hp⟩ := hs
  have hd := Message.decode_store_ack s.read_msg_ b1 b2 b3 b4 b5 b6 hlen
  have h1 := Session.step_header_read s [1, b1, b2, b3, b4, b5, b6] now uninit hp rfl
  rw [Session.on_header_read_ack_unknown _ now (by simp only [hd]) (by simp only [hd]; rfl)
    (by simp only [hd]; exact hnot)] at h1
  simp only [hd] at h1
  exact ⟨_, h1, rfl, rfl, ⟨hopen, rfl⟩, rfl, rfl⟩

theorem duration_cast_microseconds_bounds (d : Int) (h : 0 ≤ d) :
    1000 * duration_cast_microseconds d ≤ d ∧ d < 1000 * duration_cast_microseconds d + 1000 := by
  unfold duration_cast_microseconds TICKS_PER_MICROSECOND
  rw [Int.tdiv_eq_ediv h (by decide)]
  omega

/-- C7. Latency correlation: let a session in `AwaitingHeader` have the text message
`h` at the front of its queue with its write in flight and `h.id` not in the table of
send times. If that write completes at time `T` and an acknowledgement header with
the same id is then received at `T + delta` with `delta ≥ 0`, exactly one line is
printed, the latency report for `h.id` with `T + delta` minus the recorded time
converted to whole microseconds (the number of microseconds in `delta`, truncated),
and the entry is erased; a second acknowledgement header with that id prints
nothing. -/
theorem latency_correlation (s : Session) (h : Message) (rest : List Message)
    (w : List Byte) (ws : List (List Byte)) (T delta now3 : TimePoint)
    (b1 b2 b3 b4 b5 b6 c5 c6 : Byte) (uninit : Nat → Byte)
    (hs : s.AwaitingHeader) (hq : s.msgs_to_send_ = h :: rest)
    (hw : s.writes_in_flight = w :: ws) (htext : h.is_text = true)
    (hfresh : s.msg_send_times_.find h.id = none)
    (hid : b1.val * 16777216 + b2.val * 65536 + b3.val * 256 + b4.val = h.id)
    (hlen : b5.val * 256 + b6.val ≤ 1024) (hlen2 : c5.val * 256 + c6.val ≤ 1024)
    (hd : 0 ≤ delta) :
    ∃ s1 s2 s3,
      s.step (Event.write_done false T) = some s1 ∧
      s1.console = s.console ∧
      s1.msg_send_times_.find h.id = some T ∧
      s1.step (Event.read_done false [1, b1, b2, b3, b4, b5, b6] (T + delta) uninit) = some s2 ∧
      s2.console = s1.console ++
        [Notification.LatencyReport h.id (duration_cast_microseconds delta)] ∧
      1000 * duration_cast_microseconds delta ≤ delta ∧
      delta < 1000 * duration_cast_microseconds delta + 1000 ∧
      s2.msg_send_times_.find h.id = none ∧
      s2.AwaitingHeader ∧
      s2.step (Event.read_done false [1, b1, b2, b3, b4, c5, c6] now3 uninit) = some s3 ∧
      s3.console = s2.console ∧ s3.AwaitingHeader := by
  obtain ⟨s1, h1, _, ht1, _, _, hc1, ho1, hp1, _⟩ :=
    Session.step_write_done s h rest w ws T hq hw
  rw [if_pos htext] at ht1
  have hfind1 : s1.msg_send_times_.find h.id = some T := by
    rw [ht1, SendTimes.find_insert_of_absent _ _ _ hfresh, if_pos rfl]
  have hs1 : s1.AwaitingHeader := ⟨ho1.trans hs.1, hp1.trans hs.2⟩
  obtain ⟨s2, h2, hc2, ht2, hs2, _, _⟩ :=
    Session.step_ack_header_known s1 b1 b2 b3 b4 b5 b6 (T + delta) T uninit hs1 hlen
      (by rw [hid]; exact hfind1)
  rw [hid] at hc2 ht2
  have hfind2 : s2.msg_send_times_.find h.id = none := by
    rw [ht2, SendTimes.find_erase, if_pos rfl]
  obtain ⟨s3, h3, hc3, _, hs3, _, _⟩ :=
    Session.step_ack_header_unknown s2 b1 b2 b3 b4 c5 c6 now3 uninit hs2 hlen2
      (by rw [hid]; exact hfind2)
  have hsub : T + delta - T = delta := add_sub_cancel_left T delta
  rw [hsub] at hc2
  obtain ⟨hlo, hhi⟩ := duration_cast_microseconds_bounds delta hd
  exact ⟨s1, s2, s3, h1, hc1, hfind1, h2, hc2, hlo, hhi, hfind2, hs2, h3, hc3, hs3⟩

/-- Witness for `latency_correlation`: the text message with id 7 is written at tick
1000000 and acknowledged 2500 ticks later. -/
theorem latency_correlation_witness :
    ((sample_session.send (sample_msg 7)).AwaitingHeader ∧
      (sample_session.send (sample_msg 7)).msgs_to_send_ = sample_msg 7 :: [] ∧
      (sample_session.send (sample_msg 7)).writes_in_flight = (sample_msg 7).bytes :: [] ∧
      (sample_msg 7).is_text = true ∧
      (sample_session.send (sample_msg 7)).msg_send_times_.find (sample_msg 7).id = none ∧
      (0 : Byte).val * 16777216 + (0 : Byte).val * 65536 + (0 : Byte).val * 256 +
        (7 : Byte).val = (sample_msg 7).id ∧
      (0 : Byte).val * 256 + (0 : Byte).val ≤ 1024 ∧ (0 : Int) ≤ 2500) ∧
    ∃ s1 s2 s3,
      (sample_session.send (sample_msg 7)).step (Event.write_done false 1000000) = some s1 ∧
      s1.console = (sample_session.send (sample_msg 7)).console ∧
      s1.msg_send_times_.find (sample_msg 7).id = some 1000000 ∧
      s1.step (Event.read_done false [1, 0, 0, 0, 7, 0, 0] (1000000 + 2500) (fun _ => 0)) =
        some s2 ∧
      s2.console = s1.console ++
        [Notification.LatencyReport (sample_msg 7).id (duration_cast_microseconds 2500)] ∧
      1000 * duration_cast_microseconds 2500 ≤ 2500 ∧
      2500 < 1000 * duration_cast_microseconds 2500 + 1000 ∧
      s2.msg_send_times_.find (sample_msg 7).id = none ∧
      s2.AwaitingHeader ∧
      s2.step (Event.read_done false [1, 0, 0, 0, 7, 0, 0] 2000000 (fun _ => 0)) = some s3 ∧
      s3.console = s2.console ∧ s3.AwaitingHeader :=
  ⟨⟨⟨rfl, rfl⟩, rfl, rfl, rfl, rfl, by decide, by decide, by decide⟩,
    latency_correlation (sample_session.send (sample_msg 7)) (sample_msg 7) []
      (sample_msg 7).bytes [] 1000000 2500 2000000 0 0 0 7 0 0 0 0 (fun _ => 0)
      ⟨rfl, rfl⟩ rfl rfl rfl rfl (by decide) (by decide) (by decide) (by decide)⟩

/-! ## Theorems: order of transmission -/

/-- The invariant of the outbound side when calls of `send` and completion handlers
run one at a time: the socket is open and the writes in flight are exactly the write
of the front of the queue, if there is one. -/
theorem Session.send_chained (s : Session) (msg : Message) (hopen : s.socket_open_ = true)
    (hinv : s.writes_in_flight = (s.msgs_to_send_.take 1).map Message.bytes) :
    (s.send msg).socket_open_ = true ∧
    (s.send msg).writes_in_flight = ((s.send msg).msgs_to_send_.take 1).map Message.bytes ∧
    (s.send msg).msgs_to_send_ = s.msgs_to_send_ ++ [msg] ∧
    (s.send msg).wire = s.wire := by
  cases hq : s.msgs_to_send_ <;>
    simp [Session.send, Session.send_locked, Session.is_active,
      Session.send_message_from_queue, hopen, hq, hinv]

theorem Session.write_done_chained (s s1 : Session) (now : TimePoint)
    (hopen : s.socket_open_ = true)
    (hinv : s.writes_in_flight = (s.msgs_to_send_.take 1).map Message.bytes)
    (hstep : s.step (Event.write_done false now) = some s1) :
    s1.socket_open_ = true ∧
    s1.writes_in_flight = (s1.msgs_to_send_.take 1).map Message.bytes ∧
    ∃ front, s.msgs_to_send_ = front :: s1.msgs_to_send_ ∧ s1.wire = s.wire ++ [front.bytes] := by
  cases hq : s.msgs_to_send_ with
  | nil =>
    rw [hq] at hinv
    simp [Session.step, Session.complete_write, hinv] at hstep
  | cons front rest =>
    rw [hq] at hinv
    obtain ⟨s2, h2, hq2, _, hw2, hwire2, _, ho2, _, _⟩ :=
      Session.step_write_done s front rest front.bytes [] now hq hinv
    rw [hstep] at h2
    cases h2
    exact ⟨ho2.trans hopen, by rw [hw2, hq2]; rfl, front, by rw [hq2], hwire2⟩

theorem Session.run_chained (evs : List Event) :
    ∀ (s s1 : Session), s.socket_open_ = true →
      s.writes_in_flight = (s.msgs_to_send_.take 1).map Message.bytes →
      (∀ e ∈ evs, e.is_outbound = true) → s.run evs = some s1 →
      s1.socket_open_ = true ∧
      s1.writes_in_flight = (s1.msgs_to_send_.take 1).map Message.bytes ∧
      s1.wire ++ s1.msgs_to_send_.map Message.bytes =
        s.wire ++ s.msgs_to_send_.map Message.bytes ++ (Event.sent evs).map Message.bytes := by
  induction evs with
  | nil =>
    intro s s1 hopen hinv _ hrun
    simp only [Session.run, Option.some.injEq] at hrun
    subst hrun
    exact ⟨hopen, hinv, by simp [Event.sent]⟩
  | cons e es ih =>
    intro s s1 hopen hinv hev hrun
    have he := hev e (List.mem_cons_self _ _)
    have hes : ∀ e ∈ es, e.is_outbound = true := fun x hx => hev x (List.mem_cons_of_mem _ hx)
    cases e with
    | send msg =>
      obtain ⟨ho, hi, hq, hwire⟩ := Session.send_chained s msg hopen hinv
      have hrun2 : (s.send msg).run es = some s1 := by
        simpa [Session.run, Session.step] using hrun
      obtain ⟨r1, r2, r3⟩ := ih _ s1 ho hi hes hrun2
      refine ⟨r1, r2, ?_⟩
      rw [r3, hq, hwire]
      simp [Event.sent]
    | read_done ec bytes now uninit =>
      simp [Event.is_outbound] at he
    | write_done ec now =>
      have hec : ec = false := by simpa [Event.is_outbound] using he
      subst hec
      cases hstep : s.step (Event.write_done false now) with
      | none => simp [Session.run, hstep] at hrun
      | some s2 =>
        have hrun2 : s2.run es = some s1 := by simpa [Session.run, hstep] using hrun
        obtain ⟨ho, hi, front, hq, hwire⟩ := Session.write_done_chained s s2 now hopen hinv hstep
        obtain ⟨r1, r2, r3⟩ := ih s2 s1 ho hi hes hrun2
        refine ⟨r1, r2, ?_⟩
        rw [r3, hq, hwire]
        simp [Event.sent]

theorem Session.drain_chained (now : TimePoint) (n : Nat) :
    ∀ (s : Session), s.msgs_to_send_.length = n → s.socket_open_ = true →
      s.writes_in_flight = (s.msgs_to_send_.take 1).map Message.bytes →
      ∃ s1, s.run (List.replicate n (Event.write_done false now)) = some s1 ∧
        s1.wire = s.wire ++ s.msgs_to_send_.map Message.bytes ∧
        s1.msgs_to_send_ = [] ∧ s1.writes_in_flight = [] := by
  induction n with
  | zero =>
    intro s hlen _ hinv
    have hq : s.msgs_to_send_ = [] := List.length_eq_zero.mp hlen
    rw [hq] at hinv
    exact ⟨s, rfl, by simp [hq], hq, by simpa using hinv⟩
  | succ n ih =>
    intro s hlen hopen hinv
    obtain ⟨front, rest, hq⟩ := List.exists_cons_of_length_eq_add_one hlen
    rw [hq] at hinv
    obtain ⟨s2, h2, hq2, _, hw2, hwire2, _, ho2, _, _⟩ :=
      Session.step_write_done s front rest front.bytes [] now hq hinv
    have hlen2 : s2.msgs_to_send_.length = n := by
      rw [hq2]
      rw [hq] at hlen
      simpa using hlen
    obtain ⟨s3, h3, hwire3, hq3, hw3⟩ :=
      ih s2 hlen2 (ho2.trans hopen) (by rw [hw2, hq2]; rfl)
    refine ⟨s3, ?_, ?_, hq3, hw3⟩
    · simp [List.replicate, Session.run, h2, h3]
    · rw [hwire3, hwire2, hq2, hq]
      simp

/-- Order of transmission when each call of `send` and each completion handler runs as
a whole, with no section of the other thread in between: start from an active session
with an empty queue and no write in flight, and let calls of `send` and successful
write completions occur in any order that is possible (a completion only while a write
is in flight). Then at every moment the completed writes followed by the queued
messages are exactly the submitted messages in submission order, each once; the only
write in flight is that of the front of the queue; and once the remaining writes
complete, the completed writes are exactly the submitted messages in submission
order. -/
theorem submission_order_is_wire_order (s0 s : Session) (evs : List Event) (now : TimePoint)
    (hopen : s0.is_active = true) (hq : s0.msgs_to_send_ = [])
    (hw : s0.writes_in_flight = []) (hev : ∀ e ∈ evs, e.is_outbound = true)
    (hrun : s0.run evs = some s) :
    s.wire ++ s.msgs_to_send_.map Message.bytes =
      s0.wire ++ (Event.sent evs).map Message.bytes ∧
    s.writes_in_flight = (s.msgs_to_send_.take 1).map Message.bytes ∧
    ∃ s1, s.run (List.replicate s.msgs_to_send_.length (Event.write_done false now)) = some s1 ∧
      s1.wire = s0.wire ++ (Event.sent evs).map Message.bytes ∧
      s1.msgs_to_send_ = [] ∧ s1.writes_in_flight = [] := by
  obtain ⟨ho, hi, hwire⟩ := Session.run_chained evs s0 s hopen (by rw [hw, hq]; rfl) hev hrun
  rw [hq, List.map_nil, List.append_nil] at hwire
  obtain ⟨s1, h1, hw1, hq1, hf1⟩ := Session.drain_chained now _ s rfl ho hi
  exact ⟨hwire, hi, s1, h1, by rw [hw1, hwire], hq1, hf1⟩

/-- An instance of `submission_order_is_wire_order`: three calls of `send` with no
completion in between; the first write is in flight, and after three completions the
three messages have been written in the order of the calls. -/
theorem submission_order_is_wire_order_witness :
    (sample_session.is_active = true ∧ sample_session.msgs_to_send_ = [] ∧
      sample_session.writes_in_flight = [] ∧
      sample_session.run [Event.send (sample_msg 1), Event.send (sample_msg 2),
        Event.send (sample_msg 3)] =
        some (((sample_session.send (sample_msg 1)).send (sample_msg 2)).send (sample_msg 3))) ∧
    (((sample_session.send (sample_msg 1)).send (sample_msg 2)).send
        (sample_msg 3)).writes_in_flight = [(sample_msg 1).bytes] ∧
    ∃ s1, (((sample_session.send (sample_msg 1)).send (sample_msg 2)).send (sample_msg 3)).run
        (List.replicate 3 (Event.write_done false 0)) = some s1 ∧
      s1.wire = [(sample_msg 1).bytes, (sample_msg 2).bytes, (sample_msg 3).bytes] ∧
      s1.msgs_to_send_ = [] ∧ s1.writes_in_flight = [] :=
  ⟨⟨rfl, rfl, rfl, rfl⟩,
    (submission_order_is_wire_order sample_session
      (((sample_session.send (sample_msg 1)).send (sample_msg 2)).send (sample_msg 3))
      [Event.send (sample_msg 1), Event.send (sample_msg 2), Event.send (sample_msg 3)] 0
      rfl rfl rfl (by simp [Event.is_outbound]) rfl).2⟩

/-- C6. Single outstanding write fails under interleaving: in `race_schedule`, where a
call of `send` runs its locked section between the two sections of the write completion
handler, both threads issue a write of the second message, so two writes are in flight;
after one of them completes the queue is empty while a write is still in flight, and
the handler of that write has no front message to pop. -/
theorem interleaved_send_two_writes_in_flight :
    (race_start.run race_schedule).map (fun t => t.session.writes_in_flight) =
      some [(sample_msg 2).bytes, (sample_msg 2).bytes] ∧
    (race_start.run race_schedule).map (fun t => t.session.writes_in_flight.length) = some 2 ∧
    (race_start.run (race_schedule ++ [Action.write_lock 20, Action.write_start])).map
      (fun t => (t.session.msgs_to_send_.length, t.session.writes_in_flight.length)) =
      some (0, 1) ∧
    (race_start.run (race_schedule ++
      [Action.write_lock 20, Action.write_start, Action.write_lock 30])).isNone = true := by
  refine ⟨by decide, by decide, by decide, by decide⟩

/-- C5. Submission order is wire order fails under interleaving: in `race_schedule` two
messages are passed to `send` on an active session and no write fails, yet both
threads issue a write of the second message. When the first of these writes has
completed, the completed writes are the first and the second message, the queue is
empty and the other write of the second message is still in flight; when that write
completes too, the second message has been written twice. -/
theorem interleaved_send_writes_frame_twice :
    (race_start.run (race_schedule ++ [Action.write_lock 20, Action.write_start])).map
      (fun t => (t.session.is_active, t.session.console)) = some (true, []) ∧
    (race_start.run (race_schedule ++ [Action.write_lock 20, Action.write_start])).map
      (fun t => (t.session.wire, t.session.writes_in_flight, t.session.msgs_to_send_.length)) =
      some ([(sample_msg 1).bytes, (sample_msg 2).bytes], [(sample_msg 2).bytes], 0) ∧
    ((race_start.run (race_schedule ++ [Action.write_lock 20, Action.write_start])).bind
      (fun t => t.session.complete_write false)).map (fun s => s.wire) =
      some [(sample_msg 1).bytes, (sample_msg 2).bytes, (sample_msg 2).bytes] := by
  refine ⟨by decide, by decide, by decide⟩

/-! ## Theorems: what the handlers leave unchanged -/

theorem Message.decode_header_size_le (m : Message) (h : m.decode_header.1 = true) :
    m.decode_header.2.body_size_ ≤ MAX_BODY_SIZE := by
  by_cases hn : MAX_BODY_SIZE < Message.ntohs_at5 m.data_
  · rw [Message.decode_header_of_large m hn] at h
    exact Bool.noConfusion h
  · have hn2 : Message.ntohs_at5 m.data_ ≤ MAX_BODY_SIZE := Nat.le_of_not_lt hn
    by_cases h0 : (m.data_ 0).val = 0
    · rw [Message.decode_header_of_text m h0 hn2]
      exact hn2
    · by_cases h1 : (m.data_ 0).val = 1
      · rw [Message.decode_header_of_ack m h1 hn2]
        exact hn2
      · rw [Message.decode_header_of_unknown m h0 h1] at h
        exact Bool.noConfusion h

/-- The header handler never touches the queue, the writes in flight or the completed
writes, never opens the socket, and a body read it issues asks for the decoded body
size, which is at most `MAX_BODY_SIZE`. -/
theorem Session.on_header_read_frame (s : Session) (ec : Bool) (now : TimePoint) :
    (s.on_header_read ec now).msgs_to_send_ = s.msgs_to_send_ ∧
    (s.on_header_read ec now).writes_in_flight = s.writes_in_flight ∧
    (s.on_header_read ec now).wire = s.wire ∧
    (s.socket_open_ = false → (s.on_header_read ec now).socket_open_ = false) ∧
    (ec = true → (s.on_header_read ec now).pending_read = s.pending_read) ∧
    (∀ n, s.pending_read = none →
      (s.on_header_read ec now).pending_read = some (ReadOp.body n) →
      n ≤ MAX_BODY_SIZE ∧ (s.on_header_read ec now).read_msg_.body_size_ = n) := by
  cases ec
  · cases hd : s.read_msg_.decode_header.1
    · rw [Session.on_header_read_malformed s now hd]
      refine ⟨rfl, rfl, rfl, fun h => h, fun h => Bool.noConfusion h, ?_⟩
      intro n _ h
      simp at h
    · cases ht : s.read_msg_.decode_header.2.is_text
      · cases hf : s.msg_send_times_.find s.read_msg_.decode_header.2.id with
        | none =>
          rw [Session.on_header_read_ack_unknown s now hd ht hf]
          refine ⟨rfl, rfl, rfl, fun h => h, fun h => Bool.noConfusion h, ?_⟩
          intro n _ h
          simp at h
        | some sent =>
          rw [Session.on_header_read_ack_known s now sent hd ht hf]
          refine ⟨rfl, rfl, rfl, fun h => h, fun h => Bool.noConfusion h, ?_⟩
          intro n _ h
          simp at h
      · rw [Session.on_header_read_text s now hd ht]
        refine ⟨rfl, rfl, rfl, fun h => h, fun h => Bool.noConfusion h, ?_⟩
        intro n _ h
        simp only [Option.some.injEq, ReadOp.body.injEq] at h
        subst h
        exact ⟨Message.decode_header_size_le _ hd, rfl⟩
  · refine ⟨rfl, rfl, rfl, fun _ => rfl, fun _ => rfl, ?_⟩
    intro n h1 h2
    change s.pending_read = some (ReadOp.body n) at h2
    rw [h1] at h2
    exact Option.noConfusion h2

/-- The body handler issues no body read; on a closed socket it leaves the queue and
the writes in flight unchanged. -/
theorem Session.on_body_read_frame (s : Session) (ec : Bool) (uninit : Nat → Byte) :
    (s.socket_open_ = false →
      (s.on_body_read ec uninit).socket_open_ = false ∧
      (s.on_body_read ec uninit).msgs_to_send_ = s.msgs_to_send_ ∧
      (s.on_body_read ec uninit).writes_in_flight = s.writes_in_flight) ∧
    (ec = true → (s.on_body_read ec uninit).pending_read = s.pending_read) ∧
    (∀ n, s.pending_read = none →
      (s.on_body_read ec uninit).pending_read ≠ some (ReadOp.body n)) := by
  cases ec
  · refine ⟨?_, fun h => Bool.noConfusion h, ?_⟩
    · intro hc
      cases ht : s.read_msg_.is_text <;>
        simp [Session.on_body_read, Session.send, Session.is_active, Session.print,
          Session.wait_for_incoming_message, hc, ht]
    · intro n _
      simp [Session.on_body_read, Session.wait_for_incoming_message]
  · refine ⟨?_, ?_, ?_⟩
    · intro _
      simp [Session.on_body_read, Session.print, Session.close]
    · intro _
      simp [Session.on_body_read, Session.print, Session.close]
    · intro n hp
      simp [Session.on_body_read, Session.print, Session.close, hp]

/-- A call of `send` never touches the read side, the table or the socket, and on a
closed socket only prints. -/
theorem Session.send_frame (s : Session) (msg : Message) :
    (s.send msg).pending_read = s.pending_read ∧
    (s.send msg).read_msg_ = s.read_msg_ ∧
    (s.send msg).socket_open_ = s.socket_open_ ∧
    (s.send msg).msg_send_times_ = s.msg_send_times_ ∧
    (s.socket_open_ = false →
      s.send msg = { s with console := s.console ++ [Notification.NoActiveSession] }) := by
  cases ho : s.socket_open_ <;> cases hq : s.msgs_to_send_ <;>
    simp [Session.send, Session.send_locked, Session.is_active, Session.print,
      Session.send_message_from_queue, ho, hq]

/-- A write completion never touches the read side and never opens the socket; it adds
nothing to the queue; with an error code it closes the socket and prints one line. -/
theorem Session.step_write_frame (s s1 : Session) (ec : Bool) (now : TimePoint)
    (hstep : s.step (Event.write_done ec now) = some s1) :
    s1.pending_read = s.pending_read ∧
    s1.read_msg_ = s.read_msg_ ∧
    (s.socket_open_ = false → s1.socket_open_ = false) ∧
    s1.msgs_to_send_.length ≤ s.msgs_to_send_.length ∧
    (ec = true → s1.socket_open_ = false ∧
      s1.console = s.console ++ [Notification.SendError]) := by
  cases hw : s.writes_in_flight with
  | nil => simp [Session.step, Session.complete_write, hw] at hstep
  | cons w ws =>
    cases ec
    · cases hq : s.msgs_to_send_ with
      | nil =>
        simp [Session.step, Session.complete_write, Session.on_write_done,
          Session.on_write_locked, hw, hq] at hstep
      | cons front rest =>
        obtain ⟨s2, h2, hq2, _, _, _, _, ho2, hp2, hr2⟩ :=
          Session.step_write_done s front rest w ws now hq hw
        rw [hstep] at h2
        cases h2
        refine ⟨hp2, hr2, fun h => ho2.trans h, ?_, fun h => Bool.noConfusion h⟩
        rw [hq2]
        simp
    · simp only [Session.step, Session.complete_write, hw, Session.on_write_done, if_true,
        Option.some.injEq] at hstep
      subst hstep
      exact ⟨rfl, rfl, fun _ => rfl, Nat.le_refl _, fun _ => ⟨rfl, rfl⟩⟩

/-- A read completion, split into what the reactor does and the handler that runs. -/
theorem Session.step_read_cases (s s1 : Session) (ec : Bool) (bytes : List Byte)
    (now : TimePoint) (uninit : Nat → Byte)
    (hstep : s.step (Event.read_done ec bytes now uninit) = some s1) :
    ∃ s2 : Session, s2.pending_read = none ∧ s2.socket_open_ = s.socket_open_ ∧
      s2.msgs_to_send_ = s.msgs_to_send_ ∧ s2.writes_in_flight = s.writes_in_flight ∧
      s2.console = s.console ∧
      ((s.pending_read = some ReadOp.header ∧ s1 = s2.on_header_read ec now) ∨
        (∃ n, s.pending_read = some (ReadOp.body n) ∧ s1 = s2.on_body_read ec uninit)) := by
  cases hp : s.pending_read with
  | none => simp [Session.step, Session.complete_read, hp] at hstep
  | some op =>
    cases ec
    · by_cases hb : bytes.length = op.length ∧
          op.offset + op.length ≤ HEADER_SIZE + MAX_BODY_SIZE
      · cases op with
        | header =>
          simp only [Session.step, Session.complete_read, hp, hb, and_self, if_true,
            Bool.false_eq_true, if_false, Option.some.injEq] at hstep
          exact ⟨{ s with pending_read := none,
                          read_msg_ := s.read_msg_.store ReadOp.header.offset bytes },
            rfl, rfl, rfl, rfl, rfl, Or.inl ⟨rfl, hstep.symm⟩⟩
        | body n =>
          simp only [Session.step, Session.complete_read, hp, hb, and_self, if_true,
            Bool.false_eq_true, if_false, Option.some.injEq] at hstep
          exact ⟨{ s with pending_read := none,
                          read_msg_ := s.read_msg_.store (ReadOp.body n).offset bytes },
            rfl, rfl, rfl, rfl, rfl, Or.inr ⟨n, rfl, hstep.symm⟩⟩
      · simp [Session.step, Session.complete_read, hp, hb] at hstep
    · cases op with
      | header =>
        simp only [Session.step, Session.complete_read, hp, if_true,
          Option.some.injEq] at hstep
        exact ⟨{ s with pending_read := none }, rfl, rfl, rfl, rfl, rfl,
          Or.inl ⟨rfl, hstep.symm⟩⟩
      | body n =>
        simp only [Session.step, Session.complete_read, hp, if_true,
          Option.some.injEq] at hstep
        exact ⟨{ s with pending_read := none }, rfl, rfl, rfl, rfl, rfl,
          Or.inr ⟨n, rfl, hstep.symm⟩⟩

/-! ## Theorems: bounds of the body read -/

/-- One event keeps the invariant of the read side: an outstanding body read asks for
`read_msg_.body_size()` bytes and that size is at most `MAX_BODY_SIZE`. -/
theorem Session.step_body_bound (s s1 : Session) (e : Event)
    (hinv : ∀ n, s.pending_read = some (ReadOp.body n) →
      n ≤ MAX_BODY_SIZE ∧ s.read_msg_.body_size_ = n)
    (hstep : s.step e = some s1) :
    ∀ n, s1.pending_read = some (ReadOp.body n) →
      n ≤ MAX_BODY_SIZE ∧ s1.read_msg_.body_size_ = n := by
  cases e with
  | send msg =>
    simp only [Session.step, Option.some.injEq] at hstep
    subst hstep
    obtain ⟨hp, hr, _, _, _⟩ := Session.send_frame s msg
    rw [hp, hr]
    exact hinv
  | read_done ec bytes now uninit =>
    obtain ⟨s2, hp2, _, _, _, _, hcase⟩ := Session.step_read_cases s s1 ec bytes now uninit hstep
    rcases hcase with ⟨_, h1⟩ | ⟨m, _, h1⟩
    · subst h1
      intro n hn
      exact (Session.on_header_read_frame s2 ec now).2.2.2.2.2 n hp2 hn
    · subst h1
      intro n hn
      exact absurd hn ((Session.on_body_read_frame s2 ec uninit).2.2 n hp2)
  | write_done ec now =>
    obtain ⟨hp, hr, _, _, _⟩ := Session.step_write_frame s s1 ec now hstep
    rw [hp, hr]
    exact hinv

theorem Session.run_body_bound (evs : List Event) :
    ∀ (s s1 : Session),
      (∀ n, s.pending_read = some (ReadOp.body n) →
        n ≤ MAX_BODY_SIZE ∧ s.read_msg_.body_size_ = n) →
      s.run evs = some s1 →
      ∀ n, s1.pending_read = some (ReadOp.body n) →
        n ≤ MAX_BODY_SIZE ∧ s1.read_msg_.body_size_ = n := by
  induction evs with
  | nil =>
    intro s s1 hinv hrun
    simp only [Session.run, Option.some.injEq] at hrun
    subst hrun
    exact hinv
  | cons e es ih =>
    intro s s1 hinv hrun
    cases hstep : s.step e with
    | none => simp [Session.run, hstep] at hrun
    | some s2 =>
      have hrun2 : s2.run es = some s1 := by simpa [Session.run, hstep] using hrun
      exact ih s2 s1 (Session.step_body_bound s s2 e hinv hstep) hrun2

/-- Every state reached from a started session satisfies the invariant of the read
side. -/
theorem Session.reachable_body_bound (d : Nat → Byte) (k : Nat) (evs : List Event)
    (s : Session) (hrun : ((Session.create d k).start).run evs = some s) :
    ∀ n, s.pending_read = some (ReadOp.body n) →
      n ≤ MAX_BODY_SIZE ∧ s.read_msg_.body_size_ = n := by
  refine Session.run_body_bound evs _ s ?_ hrun
  intro n hn
  simp [Session.start, Session.wait_for_incoming_message] at hn

/-- Upper bound of the body length: in every state that a started session reaches by
any sequence of events, and that is `AwaitingBody n`, the declared body length
satisfies `n ≤ 1024`. -/
theorem awaiting_body_length_bound (d : Nat → Byte) (k : Nat) (evs : List Event)
    (s : Session) (n : Nat) (hrun : ((Session.create d k).start).run evs = some s)
    (hs : s.AwaitingBody n) : n ≤ 1024 :=
  (Session.reachable_body_bound d k evs s hrun n hs.2).1

/-- An instance of `awaiting_body_length_bound`: a text header that declares two body
bytes. -/
theorem awaiting_body_length_bound_witness :
    (((Session.create (fun _ => 0) 0).start).run
        [Event.read_done false [0, 0, 0, 0, 1, 0, 2] 5 (fun _ => 0)] =
        some (Session.on_header_read
          { (Session.create (fun _ => 0) 0).start with
            pending_read := none,
            read_msg_ := ((Session.create (fun _ => 0) 0).start).read_msg_.store 0
              [0, 0, 0, 0, 1, 0, 2] } false 5) ∧
      (Session.on_header_read
          { (Session.create (fun _ => 0) 0).start with
            pending_read := none,
            read_msg_ := ((Session.create (fun _ => 0) 0).start).read_msg_.store 0
              [0, 0, 0, 0, 1, 0, 2] } false 5).AwaitingBody 2) ∧
    2 ≤ 1024 :=
  ⟨⟨rfl, ⟨rfl, rfl⟩⟩,
    awaiting_body_length_bound (fun _ => 0) 0
      [Event.read_done false [0, 0, 0, 0, 1, 0, 2] 5 (fun _ => 0)] _ 2 rfl ⟨rfl, rfl⟩⟩

/-- C14. AwaitingBody length bounds, lower bound missed: a text header that declares a
body of 0 bytes (bytes `0, 0, 0, 0, 1, 0, 0`) is accepted by `decode_header`, which
tests the size against `MAX_BODY_SIZE` only; the started session is then in
`AwaitingBody 0`, the read of 0 body bytes prints an empty text and queues an
acknowledgement. So it is not the case that every reachable `AwaitingBody n` state has
`1 ≤ n ≤ 1024`. -/
theorem awaiting_body_zero_reachable :
    ((Message.default (fun _ => 0) 0).store 0 [0, 0, 0, 0, 1, 0, 0]).decode_header.1 = true ∧
    (((Session.create (fun _ => 0) 0).start).run
        [Event.read_done false [0, 0, 0, 0, 1, 0, 0] 5 (fun _ => 0)]).map
      (fun s => (s.socket_open_, s.pending_read)) = some (true, some (ReadOp.body 0)) ∧
    (((Session.create (fun _ => 0) 0).start).run
        [Event.read_done false [0, 0, 0, 0, 1, 0, 0] 5 (fun _ => 0),
          Event.read_done false [] 6 (fun _ => 0)]).map
      (fun s => (s.console, s.msgs_to_send_.map Message.bytes, s.pending_read)) =
      some ([Notification.IncomingText []], [[1, 0, 0, 0, 1, 0, 0]], some ReadOp.header) ∧
    ¬ (∀ (d : Nat → Byte) (k : Nat) (evs : List Event) (s : Session) (n : Nat),
      ((Session.create d k).start).run evs = some s → s.AwaitingBody n →
      1 ≤ n ∧ n ≤ 1024) := by
  refine ⟨by decide, by decide, by decide, ?_⟩
  intro h
  have h0 := h (fun _ => 0) 0 [Event.read_done false [0, 0, 0, 0, 1, 0, 0] 5 (fun _ => 0)]
    _ 0 rfl ⟨rfl, rfl⟩
  omega

/-- C15. Read buffer bounds: in every state that a started session reaches by any
sequence of events, every outstanding read lies inside the buffer of 1031 bytes; an
outstanding body read starts at offset 7 and asks for `body_size() ≤ 1024` bytes; its
successful completion is never refused for leaving the buffer, and afterwards the body
that the handler accesses is the received bytes, again `body_size() ≤ 1024` bytes from
offset 7. -/
theorem read_buffer_bounds (d : Nat → Byte) (k : Nat) (evs : List Event) (s : Session)
    (hrun : ((Session.create d k).start).run evs = some s) :
    (∀ op, s.pending_read = some op → op.offset + op.length ≤ 1031) ∧
    (∀ n, s.pending_read = some (ReadOp.body n) →
      (ReadOp.body n).offset = 7 ∧ n = s.read_msg_.body_size ∧ n ≤ 1024 ∧
      ∀ bytes : List Byte, bytes.length = n →
        ∃ s1, s.complete_read false bytes = some (ReadOp.body n, s1) ∧
          s1.read_msg_.body = bytes ∧ s1.read_msg_.body_size ≤ 1024 ∧
          HEADER_SIZE + s1.read_msg_.body_size ≤ 1031) := by
  have hinv := Session.reachable_body_bound d k evs s hrun
  constructor
  · intro op hop
    cases op with
    | header => decide
    | body n =>
      obtain ⟨hn, _⟩ := hinv n hop
      simp only [ReadOp.offset, ReadOp.length, HEADER_SIZE]
      unfold MAX_BODY_SIZE at hn
      omega
  · intro n hop
    obtain ⟨hn, hsz⟩ := hinv n hop
    refine ⟨rfl, hsz.symm, hn, ?_⟩
    intro bytes hb
    refine ⟨{ s with pending_read := none, read_msg_ := s.read_msg_.store HEADER_SIZE bytes },
      ?_, ?_, ?_, ?_⟩
    · simp [Session.complete_read, hop, hb, ReadOp.length, ReadOp.offset, hn]
    · exact Message.store_body s.read_msg_ bytes (by rw [hb, hsz])
    · show s.read_msg_.body_size_ ≤ 1024
      rw [hsz]
      exact hn
    · show HEADER_SIZE + s.read_msg_.body_size_ ≤ 1031
      rw [hsz]
      unfold MAX_BODY_SIZE at hn
      unfold HEADER_SIZE
      omega

/-- Witness for `read_buffer_bounds`: the state after a text header that declares two
body bytes. -/
theorem read_buffer_bounds_witness :
    ((Session.create (fun _ => 0) 0).start).run
        [Event.read_done false [0, 0, 0, 0, 1, 0, 2] 5 (fun _ => 0)] =
      some (Session.on_header_read
        { (Session.create (fun _ => 0) 0).start with
          pending_read := none,
          read_msg_ := ((Session.create (fun _ => 0) 0).start).read_msg_.store 0
            [0, 0, 0, 0, 1, 0, 2] } false 5) ∧
    ∀ op, (Session.on_header_read
        { (Session.create (fun _ => 0) 0).start with
          pending_read := none,
          read_msg_ := ((Session.create (fun _ => 0) 0).start).read_msg_.store 0
            [0, 0, 0, 0, 1, 0, 2] } false 5).pending_read = some op →
      op.offset + op.length ≤ 1031 :=
  ⟨rfl, (read_buffer_bounds (fun _ => 0) 0
    [Event.read_done false [0, 0, 0, 0, 1, 0, 2] 5 (fun _ => 0)] _ rfl).1⟩

/-! ## Theorems: acknowledgement headers and the byte stream -/

/-- With the header read outstanding, the seven bytes at the front of the stream are
consumed and handled as a header; the bytes behind them are left in the stream. -/
theorem Session.receive_header (s : Session) (c0 c1 c2 c3 c4 c5 c6 : Byte)
    (rest : List Byte) (now : TimePoint) (uninit : Nat → Byte)
    (hp : s.pending_read = some ReadOp.header) :
    s.receive ([c0, c1, c2, c3, c4, c5, c6] ++ rest) now uninit =
      some (Session.on_header_read
        { s with pending_read := none,
                 read_msg_ := s.read_msg_.store 0 [c0, c1, c2, c3, c4, c5, c6] } false now,
        rest) := by
  have h1 := Session.step_header_read s [c0, c1, c2, c3, c4, c5, c6] now uninit hp rfl
  simp only [Session.receive, hp, ReadOp.length, HEADER_SIZE]
  rw [if_neg (by simp)]
  have ht : List.take 7 ([c0, c1, c2, c3, c4, c5, c6] ++ rest) =
      [c0, c1, c2, c3, c4, c5, c6] := rfl
  have hd : List.drop 7 ([c0, c1, c2, c3, c4, c5, c6] ++ rest) = rest := rfl
  rw [ht, hd, h1]

/-- C16. Ack with a declared body: for a session in `AwaitingHeader` and a header with
first byte 1 whose declared body length `n` (bytes `b5 b6`) satisfies `n ≤ 1024`,
`decode_header` succeeds, the read consumes exactly the seven header bytes of the
stream, and the session is in `AwaitingHeader` again with a read of 7 bytes
outstanding, whatever `n` is; the next seven bytes of the stream are then handled as
a header. -/
theorem ack_with_declared_body (s : Session) (b1 b2 b3 b4 b5 b6 : Byte) (rest : List Byte)
    (now : TimePoint) (uninit : Nat → Byte) (hs : s.AwaitingHeader)
    (hlen : b5.val * 256 + b6.val ≤ 1024) :
    (s.read_msg_.store 0 [1, b1, b2, b3, b4, b5, b6]).decode_header.1 = true ∧
    (s.read_msg_.store 0 [1, b1, b2, b3, b4, b5, b6]).decode_header.2.is_ack = true ∧
    (s.read_msg_.store 0 [1, b1, b2, b3, b4, b5, b6]).decode_header.2.body_size =
      b5.val * 256 + b6.val ∧
    ∃ s1, s.receive ([1, b1, b2, b3, b4, b5, b6] ++ rest) now uninit = some (s1, rest) ∧
      s1.AwaitingHeader ∧
      (∀ op, s1.pending_read = some op → op.offset = 0 ∧ op.length = 7) ∧
      ∀ (c0 c1 c2 c3 c4 c5 c6 : Byte) (rest2 : List Byte) (now2 : TimePoint)
        (uninit2 : Nat → Byte),
        s1.receive ([c0, c1, c2, c3, c4, c5, c6] ++ rest2) now2 uninit2 =
          some (Session.on_header_read
            { s1 with pending_read := none,
                      read_msg_ := s1.read_msg_.store 0 [c0, c1, c2, c3, c4, c5, c6] }
            false now2, rest2) := by
  have hd := Message.decode_store_ack s.read_msg_ b1 b2 b3 b4 b5 b6 hlen
  have hrecv := Session.receive_header s 1 b1 b2 b3 b4 b5 b6 rest now uninit hs.2
  have hstep := Session.step_header_read s [1, b1, b2, b3, b4, b5, b6] now uninit hs.2 rfl
  refine ⟨by rw [hd], by rw [hd]; rfl, by rw [hd]; rfl, ?_⟩
  have hnext : ∀ s1 : Session, s1.AwaitingHeader →
      s.receive ([1, b1, b2, b3, b4, b5, b6] ++ rest) now uninit = some (s1, rest) →
      ∃ s1, s.receive ([1, b1, b2, b3, b4, b5, b6] ++ rest) now uninit = some (s1, rest) ∧
        s1.AwaitingHeader ∧
        (∀ op, s1.pending_read = some op → op.offset = 0 ∧ op.length = 7) ∧
        ∀ (c0 c1 c2 c3 c4 c5 c6 : Byte) (rest2 : List Byte) (now2 : TimePoint)
          (uninit2 : Nat → Byte),
          s1.receive ([c0, c1, c2, c3, c4, c5, c6] ++ rest2) now2 uninit2 =
            some (Session.on_header_read
              { s1 with pending_read := none,
                        read_msg_ := s1.read_msg_.store 0 [c0, c1, c2, c3, c4, c5, c6] }
              false now2, rest2) := by
    intro s1 hs1 hr
    refine ⟨s1, hr, hs1, ?_, ?_⟩
    · intro op hop
      rw [hs1.2] at hop
      cases hop
      exact ⟨rfl, rfl⟩
    · intro c0 c1 c2 c3 c4 c5 c6 rest2 now2 uninit2
      exact Session.receive_header s1 c0 c1 c2 c3 c4 c5 c6 rest2 now2 uninit2 hs1.2
  cases hf : s.msg_send_times_.find
      (b1.val * 16777216 + b2.val * 65536 + b3.val * 256 + b4.val) with
  | none =>
    obtain ⟨s1, h1, _, _, hs1, _, _⟩ :=
      Session.step_ack_header_unknown s b1 b2 b3 b4 b5 b6 now uninit hs hlen hf
    rw [hstep] at h1
    cases h1
    exact hnext _ hs1 hrecv
  | some sent =>
    obtain ⟨s1, h1, _, _, hs1, _, _⟩ :=
      Session.step_ack_header_known s b1 b2 b3 b4 b5 b6 now sent uninit hs hlen hf
    rw [hstep] at h1
    cases h1
    exact hnext _ hs1 hrecv

/-- Witness for `ack_with_declared_body`: an acknowledgement header that declares a
body of 3 bytes, followed in the stream by 3 bytes and the start of a next header. -/
theorem ack_with_declared_body_witness :
    (sample_session.AwaitingHeader ∧ (0 : Byte).val * 256 + (3 : Byte).val ≤ 1024) ∧
    ∃ s1, sample_session.receive ([1, 0, 0, 0, 7, 0, 3] ++ [97, 98, 99, 0, 0, 0, 0, 8])
        5 (fun _ => 0) = some (s1, [97, 98, 99, 0, 0, 0, 0, 8]) ∧
      s1.AwaitingHeader ∧
      (∀ op, s1.pending_read = some op → op.offset = 0 ∧ op.length = 7) ∧
      ∀ (c0 c1 c2 c3 c4 c5 c6 : Byte) (rest2 : List Byte) (now2 : TimePoint)
        (uninit2 : Nat → Byte),
        s1.receive ([c0, c1, c2, c3, c4, c5, c6] ++ rest2) now2 uninit2 =
          some (Session.on_header_read
            { s1 with pending_read := none,
                      read_msg_ := s1.read_msg_.store 0 [c0, c1, c2, c3, c4, c5, c6] }
            false now2, rest2) :=
  ⟨⟨⟨rfl, rfl⟩, by decide⟩,
    (ack_with_declared_body sample_session 0 0 0 7 0 3 [97, 98, 99, 0, 0, 0, 0, 8] 5
      (fun _ => 0) ⟨rfl, rfl⟩ (by decide)).2.2.2⟩

/-! ## Theorems: sending without an active session -/

/-- C11. Send on a closed pipeline is a no-op: for every message, `Session::send` on a
session whose socket is closed (`is_active()` is false) prints `No active session to
send` and changes nothing else, so the queue, the table of send times and the writes
in flight are unchanged; `Server::send` with no current session prints its
notification and changes nothing else, and with a closed current session it delegates
to that session, which prints and changes nothing else. -/
theorem send_on_closed_is_noop (s : Session) (sv : Server) (msg : Message)
    (hclosed : s.Closed) :
    s.is_active = false ∧
    s.send msg = { s with console := s.console ++ [Notification.NoActiveSession] } ∧
    (s.send msg).msgs_to_send_ = s.msgs_to_send_ ∧
    (s.send msg).msg_send_times_ = s.msg_send_times_ ∧
    (s.send msg).writes_in_flight = s.writes_in_flight ∧
    (s.send msg).wire = s.wire ∧
    (sv.current_session_ = none →
      sv.send msg = { sv with console := sv.console ++ [Notification.NoActiveClientSession] }) ∧
    (sv.current_session_ = some s →
      sv.send msg =
        Server.mk (some { s with console := s.console ++ [Notification.NoActiveSession] })
          sv.console) := by
  have hsend := (Session.send_frame s msg).2.2.2.2 hclosed
  refine ⟨hclosed, hsend, by rw [hsend], by rw [hsend], by rw [hsend], by rw [hsend], ?_, ?_⟩
  · intro hnone
    simp only [Server.send, hnone]
  · intro hsome
    simp only [Server.send, hsome, hsend]

/-- Witness for `send_on_closed_is_noop`: a session whose socket has been closed, and
a server that has accepted no connection. -/
theorem send_on_closed_is_noop_witness :
    sample_session.close.Closed ∧
    sample_session.close.send (sample_msg 1) =
      { sample_session.close with
        console := sample_session.close.console ++ [Notification.NoActiveSession] } ∧
    (Server.mk none []).send (sample_msg 1) =
      Server.mk none [Notification.NoActiveClientSession] :=
  ⟨rfl,
    (send_on_closed_is_noop sample_session.close (Server.mk none []) (sample_msg 1) rfl).2.1,
    (send_on_closed_is_noop sample_session.close (Server.mk none [])
      (sample_msg 1) rfl).2.2.2.2.2.2.1 rfl⟩

/-! ## Theorems: a repeated id -/

/-- C18. Duplicate id keeps the first timestamp: let a session in `AwaitingHeader` have
the text message `h` at the front of its queue with its write in flight, while `h.id`
is already in the table of send times with the time `t0` of an earlier write. When the
write of `h` completes at `T`, the table is unchanged (`t0` is kept, `T` is discarded);
an acknowledgement header with that id received at `now` prints the report of `now`
minus `t0` and erases the entry; a further acknowledgement header with that id prints
nothing, so the second write produces no report. -/
theorem duplicate_id_keeps_first_timestamp (s : Session) (h : Message) (rest : List Message)
    (w : List Byte) (ws : List (List Byte)) (t0 T now now3 : TimePoint)
    (b1 b2 b3 b4 b5 b6 c5 c6 : Byte) (uninit : Nat → Byte)
    (hs : s.AwaitingHeader) (hq : s.msgs_to_send_ = h :: rest)
    (hw : s.writes_in_flight = w :: ws) (htext : h.is_text = true)
    (hdup : s.msg_send_times_.find h.id = some t0)
    (hid : b1.val * 16777216 + b2.val * 65536 + b3.val * 256 + b4.val = h.id)
    (hlen : b5.val * 256 + b6.val ≤ 1024) (hlen2 : c5.val * 256 + c6.val ≤ 1024) :
    ∃ s1 s2 s3,
      s.step (Event.write_done false T) = some s1 ∧
      s1.msg_send_times_ = s.msg_send_times_ ∧
      s1.msg_send_times_.find h.id = some t0 ∧
      s1.console = s.console ∧
      s1.step (Event.read_done false [1, b1, b2, b3, b4, b5, b6] now uninit) = some s2 ∧
      s2.console = s1.console ++
        [Notification.LatencyReport h.id (duration_cast_microseconds (now - t0))] ∧
      s2.msg_send_times_.find h.id = none ∧
      s2.step (Event.read_done false [1, b1, b2, b3, b4, c5, c6] now3 uninit) = some s3 ∧
      s3.console = s2.console := by
  obtain ⟨s1, h1, _, ht1, _, _, hc1, ho1, hp1, _⟩ :=
    Session.step_write_done s h rest w ws T hq hw
  rw [if_pos htext, SendTimes.insert_of_present _ _ _ t0 hdup] at ht1
  have hfind1 : s1.msg_send_times_.find h.id = some t0 := by rw [ht1]; exact hdup
  have hs1 : s1.AwaitingHeader := ⟨ho1.trans hs.1, hp1.trans hs.2⟩
  obtain ⟨s2, h2, hc2, ht2, hs2, _, _⟩ :=
    Session.step_ack_header_known s1 b1 b2 b3 b4 b5 b6 now t0 uninit hs1 hlen
      (by rw [hid]; exact hfind1)
  rw [hid] at hc2 ht2
  have hfind2 : s2.msg_send_times_.find h.id = none := by
    rw [ht2, SendTimes.find_erase, if_pos rfl]
  obtain ⟨s3, h3, hc3, _, _, _, _⟩ :=
    Session.step_ack_header_unknown s2 b1 b2 b3 b4 c5 c6 now3 uninit hs2 hlen2
      (by rw [hid]; exact hfind2)
  exact ⟨s1, s2, s3, h1, ht1, hfind1, hc1, h2, hc2, hfind2, h3, hc3⟩

/-- Witness for `duplicate_id_keeps_first_timestamp`: the id 7 was written at tick
1000, is written again at tick 5000 and acknowledged at tick 9000. -/
theorem duplicate_id_keeps_first_timestamp_witness :
    (sample_repeat.AwaitingHeader ∧
      sample_repeat.msgs_to_send_ = sample_msg 7 :: [] ∧
      sample_repeat.writes_in_flight = (sample_msg 7).bytes :: [] ∧
      (sample_msg 7).is_text = true ∧
      sample_repeat.msg_send_times_.find (sample_msg 7).id = some 1000) ∧
    ∃ s1 s2 s3,
      sample_repeat.step (Event.write_done false 5000) = some s1 ∧
      s1.msg_send_times_ = sample_repeat.msg_send_times_ ∧
      s1.msg_send_times_.find (sample_msg 7).id = some 1000 ∧
      s1.console = sample_repeat.console ∧
      s1.step (Event.read_done false [1, 0, 0, 0, 7, 0, 0] 9000 (fun _ => 0)) = some s2 ∧
      s2.console = s1.console ++
        [Notification.LatencyReport (sample_msg 7).id
          (duration_cast_microseconds (9000 - 1000))] ∧
      s2.msg_send_times_.find (sample_msg 7).id = none ∧
      s2.step (Event.read_done false [1, 0, 0, 0, 7, 0, 0] 9500 (fun _ => 0)) = some s3 ∧
      s3.console = s2.console :=
  ⟨⟨⟨rfl, rfl⟩, rfl, rfl, rfl, rfl⟩,
    duplicate_id_keeps_first_timestamp sample_repeat (sample_msg 7) [] (sample_msg 7).bytes []
      1000 5000 9000 9500 0 0 0 7 0 0 0 0 (fun _ => 0) ⟨rfl, rfl⟩ rfl rfl rfl rfl
      (by decide) (by decide) (by decide)⟩

/-! ## Theorems: the closed state -/

/-- C12 (as amended). Closed is reached on any I/O failure and is terminal: in every
state, the failure of the outstanding read (header or body) and the failure of a write
in flight close the socket and print one error line, and start no read. From a closed
session every event leaves the session closed and adds no message to the queue, and
every event other than a read completion delivered without error leaves no read
outstanding that was not outstanding before. -/
theorem closed_on_failure_and_terminal (s : Session) :
    (∀ (op : ReadOp) (bytes : List Byte) (now : TimePoint) (uninit : Nat → Byte),
      s.pending_read = some op →
      ∃ s1, s.step (Event.read_done true bytes now uninit) = some s1 ∧
        s1.Closed ∧ s1.pending_read = none ∧
        s1.console = s.console ++
          [match op with
            | ReadOp.header => Notification.HeaderReadError
            | ReadOp.body _ => Notification.BodyReadError]) ∧
    (∀ (w : List Byte) (ws : List (List Byte)) (now : TimePoint),
      s.writes_in_flight = w :: ws →
      ∃ s1, s.step (Event.write_done true now) = some s1 ∧
        s1.Closed ∧ s1.pending_read = s.pending_read ∧ s1.writes_in_flight = ws ∧
        s1.console = s.console ++ [Notification.SendError]) ∧
    (s.Closed → ∀ (e : Event) (s1 : Session), s.step e = some s1 →
      s1.Closed ∧ s1.msgs_to_send_.length ≤ s.msgs_to_send_.length ∧
      ((∀ bytes now uninit, e ≠ Event.read_done false bytes now uninit) →
        s1.pending_read = none ∨ s1.pending_read = s.pending_read)) := by
  refine ⟨?_, ?_, ?_⟩
  · intro op bytes now uninit hp
    cases op with
    | header =>
      refine ⟨Session.on_header_read { s with pending_read := none } true now, ?_,
        rfl, rfl, rfl⟩
      simp [Session.step, Session.complete_read, hp]
    | body n =>
      refine ⟨Session.on_body_read { s with pending_read := none } true uninit, ?_,
        rfl, rfl, rfl⟩
      simp [Session.step, Session.complete_read, hp]
  · intro w ws now hw
    refine ⟨Session.close (Session.print { s with writes_in_flight := ws, wire := s.wire }
      Notification.SendError), ?_, rfl, rfl, rfl, rfl⟩
    simp [Session.step, Session.complete_write, Session.on_write_done, hw]
  · intro hc e s1 hstep
    cases e with
    | send msg =>
      simp only [Session.step, Option.some.injEq] at hstep
      subst hstep
      rw [(Session.send_frame s msg).2.2.2.2 hc]
      exact ⟨hc, Nat.le_refl _, fun _ => Or.inr rfl⟩
    | read_done ec bytes now uninit =>
      obtain ⟨s2, hp2, ho2, hq2, _, _, hcase⟩ :=
        Session.step_read_cases s s1 ec bytes now uninit hstep
      have hc2 : s2.socket_open_ = false := ho2.trans hc
      rcases hcase with ⟨_, h1⟩ | ⟨m, _, h1⟩
      · subst h1
        obtain ⟨fq, _, _, fo, fp, _⟩ := Session.on_header_read_frame s2 ec now
        refine ⟨fo hc2, by rw [fq, hq2], ?_⟩
        intro hne
        cases ec with
        | false => exact absurd rfl (hne bytes now uninit)
        | true => exact Or.inl ((fp rfl).trans hp2)
      · subst h1
        obtain ⟨fc, fp, _⟩ := Session.on_body_read_frame s2 ec uninit
        obtain ⟨fo, fq, _⟩ := fc hc2
        refine ⟨fo, by rw [fq, hq2], ?_⟩
        intro hne
        cases ec with
        | false => exact absurd rfl (hne bytes now uninit)
        | true => exact Or.inl ((fp rfl).trans hp2)
    | write_done ec now =>
      obtain ⟨hp, _, ho, hq, _⟩ := Session.step_write_frame s s1 ec now hstep
      exact ⟨ho hc, hq, fun _ => Or.inr hp⟩

/-- Witness for `closed_on_failure_and_terminal`: the header read of a started session
fails. -/
theorem closed_on_failure_and_terminal_witness :
    sample_session.pending_read = some ReadOp.header ∧
    ∃ s1, sample_session.step (Event.read_done true [] 5 (fun _ => 0)) = some s1 ∧
      s1.Closed ∧ s1.pending_read = none ∧
      s1.console = sample_session.console ++ [Notification.HeaderReadError] :=
  ⟨rfl, (closed_on_failure_and_terminal sample_session).1 ReadOp.header [] 5 (fun _ => 0) rfl⟩

/-- C12 as stated does not hold: after a failed write has closed the socket, the
header read that was outstanding can still be delivered as successful; its handler
then issues a body read on the closed socket. -/
theorem closed_session_starts_read :
    (sample_session.run [Event.send (sample_msg 1), Event.write_done true 10]).map
        (fun s => (s.socket_open_, s.pending_read)) = some (false, some ReadOp.header) ∧
    (sample_session.run [Event.send (sample_msg 1), Event.write_done true 10,
        Event.read_done false [0, 0, 0, 0, 1, 0, 2] 20 (fun _ => 0)]).map
        (fun s => (s.socket_open_, s.pending_read)) =
      some (false, some (ReadOp.body 2)) := by
  refine ⟨by decide, by decide⟩

/-! ## Theorems: the input loop -/

/-- An empty line changes nothing. -/
theorem InputLoop.on_line_nil (st : InputLoop) (uninit : Nat → Byte) :
    st.on_line [] uninit = st := by
  simp [InputLoop.on_line, MAX_BODY_SIZE, Message.create, Message.body_size]

/-- A non-empty line: exactly one message is passed to `send`, a text message with the
current id whose body is the line cut to `MAX_BODY_SIZE` bytes, and `msg_id` advances,
whatever the state of the server and of the session. -/
theorem InputLoop.on_line_cons (st : InputLoop) (line : List Byte) (uninit : Nat → Byte)
    (hne : line ≠ []) :
    ∃ m : Message, (st.on_line line uninit).passed = st.passed ++ [m] ∧
      (st.on_line line uninit).msg_id = (st.msg_id + 1) % 2 ^ 32 ∧
      (st.on_line line uninit).is_server_mode = st.is_server_mode ∧
      m.is_text = true ∧ m.id = st.msg_id % 2 ^ 32 ∧
      m.body_size = min line.length 1024 ∧
      m.body = line.take 1024 := by
  have hnz : ∀ l : List Byte, l ≠ [] →
      ¬ (Message.create MsgType.text st.msg_id l.length uninit).body_size = 0 := by
    intro l hl h0
    exact hl (List.length_eq_zero.mp h0)
  have hbody : ∀ (l : List Byte) (i : Nat),
      ((Message.store (Message.create MsgType.text i l.length uninit) HEADER_SIZE
        (l.take (Message.create MsgType.text i l.length uninit).body_size)).encode_header).body
        = l := by
    intro l i
    rw [Message.encode_header_body]
    show (Message.store _ HEADER_SIZE (l.take l.length)).body = l
    rw [List.take_length]
    exact Message.store_body _ l rfl
  by_cases hlen : line.length > MAX_BODY_SIZE
  · have hl : (line.take MAX_BODY_SIZE).length = MAX_BODY_SIZE := by
      rw [List.length_take]
      exact Nat.min_eq_left (Nat.le_of_lt hlen)
    have htk : line.take MAX_BODY_SIZE ≠ [] := by
      intro h0
      rw [h0] at hl
      exact absurd hl (by decide)
    refine ⟨((Message.create MsgType.text st.msg_id (line.take MAX_BODY_SIZE).length
      uninit).store HEADER_SIZE ((line.take MAX_BODY_SIZE).take
        (Message.create MsgType.text st.msg_id (line.take MAX_BODY_SIZE).length
          uninit).body_size)).encode_header, ?_, ?_, ?_, rfl, rfl, ?_, ?_⟩
    · unfold InputLoop.on_line
      simp only [hlen, if_true]
      rw [if_neg (hnz _ htk)]
      cases hm : st.is_server_mode <;> rfl
    · unfold InputLoop.on_line
      simp only [hlen, if_true]
      rw [if_neg (hnz _ htk)]
      cases hm : st.is_server_mode <;> rfl
    · unfold InputLoop.on_line
      simp only [hlen, if_true]
      rw [if_neg (hnz _ htk)]
      cases hm : st.is_server_mode <;> simp [hm]
    · show (line.take MAX_BODY_SIZE).length = min line.length 1024
      rw [hl]
      unfold MAX_BODY_SIZE at hlen ⊢
      omega
    · exact hbody (line.take MAX_BODY_SIZE) st.msg_id
  · have hle : line.length ≤ MAX_BODY_SIZE := Nat.le_of_not_lt hlen
    refine ⟨((Message.create MsgType.text st.msg_id line.length
      uninit).store HEADER_SIZE (line.take
        (Message.create MsgType.text st.msg_id line.length uninit).body_size)).encode_header,
      ?_, ?_, ?_, rfl, rfl, ?_, ?_⟩
    · unfold InputLoop.on_line
      simp only [hlen, if_false]
      rw [if_neg (hnz _ hne)]
      cases hm : st.is_server_mode <;> rfl
    · unfold InputLoop.on_line
      simp only [hlen, if_false]
      rw [if_neg (hnz _ hne)]
      cases hm : st.is_server_mode <;> rfl
    · unfold InputLoop.on_line
      simp only [hlen, if_false]
      rw [if_neg (hnz _ hne)]
      cases hm : st.is_server_mode <;> simp [hm]
    · show line.length = min line.length 1024
      unfold MAX_BODY_SIZE at hle
      omega
    · rw [hbody line st.msg_id]
      exact (List.take_of_length_le hle).symm

/-- The messages passed to `send` by the loop, against the non-empty lines numbered
from `i`, where `i` agrees with `msg_id` modulo `2 ^ 32`. -/
theorem InputLoop.run_passed (lines : List (List Byte × (Nat → Byte))) :
    ∀ (st : InputLoop) (i : Nat), st.msg_id % 2 ^ 32 = i % 2 ^ 32 →
      ∃ new : List Message, (st.run lines).passed = st.passed ++ new ∧
        List.Forall₂ (fun (m : Message) (p : Nat × List Byte) =>
          m.is_text = true ∧ m.id = p.1 % 2 ^ 32 ∧ m.body_size = min p.2.length 1024 ∧
            m.body = p.2.take 1024) new
          (List.enumFrom i (InputLoop.nonempty_lines lines)) ∧
        (st.run lines).msg_id % 2 ^ 32 =
          (i + (InputLoop.nonempty_lines lines).length) % 2 ^ 32 ∧
        (st.msg_id < 2 ^ 32 → (st.run lines).msg_id < 2 ^ 32) := by
  induction lines with
  | nil =>
    intro st i hi
    exact ⟨[], by simp [InputLoop.run], by simp [InputLoop.nonempty_lines],
      by simpa [InputLoop.run, InputLoop.nonempty_lines] using hi, fun h => h⟩
  | cons l ls ih =>
    intro st i hi
    cases hl : l.1 with
    | nil =>
      obtain ⟨new, h1, h2, h3, h4⟩ := ih st i hi
      have hrun : st.run (l :: ls) = st.run ls := by
        simp [InputLoop.run, hl, InputLoop.on_line_nil]
      have hne : InputLoop.nonempty_lines (l :: ls) = InputLoop.nonempty_lines ls := by
        simp [InputLoop.nonempty_lines, hl]
      rw [hrun, hne]
      exact ⟨new, h1, h2, h3, h4⟩
    | cons c cs =>
      obtain ⟨m, hp, hid, _, mt, mi, ms, mb⟩ :=
        InputLoop.on_line_cons st (c :: cs) l.2 (List.cons_ne_nil c cs)
      have hi2 : (st.on_line (c :: cs) l.2).msg_id % 2 ^ 32 = (i + 1) % 2 ^ 32 := by
        rw [hid]
        omega
      obtain ⟨new, h1, h2, h3, h4⟩ := ih (st.on_line (c :: cs) l.2) (i + 1) hi2
      have hrun : st.run (l :: ls) = (st.on_line (c :: cs) l.2).run ls := by
        simp [InputLoop.run, hl]
      have hne : InputLoop.nonempty_lines (l :: ls) =
          (c :: cs) :: InputLoop.nonempty_lines ls := by
        simp [InputLoop.nonempty_lines, hl]
      rw [hrun, hne]
      refine ⟨m :: new, ?_, ?_, ?_, ?_⟩
      · rw [h1, hp]
        simp
      · rw [List.enumFrom_cons]
        exact List.Forall₂.cons ⟨mt, by rw [mi]; exact hi, ms, mb⟩ h2
      · rw [h3, List.length_cons]
        omega
      · intro _
        apply h4
        rw [hid]
        exact Nat.mod_lt _ (by decide)

theorem InputLoop.nonempty_lines_pos (lines : List (List Byte × (Nat → Byte))) (l : List Byte)
    (h : l ∈ InputLoop.nonempty_lines lines) : 1 ≤ l.length := by
  unfold InputLoop.nonempty_lines at h
  rw [List.mem_filter] at h
  cases l with
  | nil => simp at h
  | cons c cs => simp

theorem InputLoop.forall2_mem_left {R : Message → Nat × List Byte → Prop} {xs : List Message}
    {ys : List (Nat × List Byte)} (h : List.Forall₂ R xs ys) :
    ∀ m, m ∈ xs → ∃ p, p ∈ ys ∧ R m p := by
  induction h with
  | nil =>
    intro m hm
    simp at hm
  | cons hr _ ih =>
    intro m hm
    rcases List.mem_cons.mp hm with rfl | hm2
    · exact ⟨_, List.mem_cons_self _ _, hr⟩
    · obtain ⟨p, hp, hR⟩ := ih m hm2
      exact ⟨p, List.mem_cons_of_mem _ hp, hR⟩

/-- C13. Empty input line is a no-op: an iteration of the input loop on an empty line
leaves the whole state of `main` unchanged, so no message is passed to `send` and
`msg_id` is unchanged; and every message that the input loop passes to `send`, for any
lines and in either mode, is a text message with body size at least 1. -/
theorem empty_line_is_noop (st : InputLoop) (uninit : Nat → Byte) (is_server_mode : Bool)
    (server : Server) (session : Session) (lines : List (List Byte × (Nat → Byte))) :
    st.on_line [] uninit = st ∧
    (st.on_line [] uninit).passed = st.passed ∧
    (st.on_line [] uninit).msg_id = st.msg_id ∧
    ∀ m, m ∈ ((InputLoop.enter is_server_mode server session).run lines).passed →
      m.is_text = true ∧ 1 ≤ m.body_size := by
  have h0 := InputLoop.on_line_nil st uninit
  refine ⟨h0, by rw [h0], by rw [h0], ?_⟩
  intro m hm
  obtain ⟨new, h1, h2, _, _⟩ :=
    InputLoop.run_passed lines (InputLoop.enter is_server_mode server session) 1 rfl
  rw [h1] at hm
  have hm2 : m ∈ new := by simpa [InputLoop.enter] using hm
  obtain ⟨p, hp, mt, _, ms, _⟩ := InputLoop.forall2_mem_left h2 m hm2
  have hpos := InputLoop.nonempty_lines_pos lines p.2 (List.snd_mem_of_mem_enumFrom hp)
  refine ⟨mt, ?_⟩
  rw [ms]
  omega

end Chat
